import Mathlib

/-!
Verification development for the split-shipment fulfillment orchestrator.

Shallow embedding conventions:
* Money is carried as integer cents (`Int`); the JS helpers `dollarsToCents` /
  `toCents` (float rounding of decimal strings) are abstracted by taking the
  already-converted integer cent amounts as input.
* JS `Math.floor(totalCents / quantity)` on integer operands is `Int.fdiv`.
* JS stable `Array.prototype.sort` is `stableSortBy` (stable insertion sort;
  ECMAScript requires `sort` to be stable, and a stable comparison sort is
  unique up to the order of compare-equal elements, which stability fixes).
* The Supabase store is modelled as an explicit record of rows; store writes
  are modelled as succeeding (the handlers' own behaviour on store errors is
  out of the claims' scope except where noted).
* Timestamp columns (`created_at` / `updated_at`) are not modelled except for
  the two cancellation timestamps, which the claims mention.
-/

/-! ## ParcelPacker (app/helpers/fulfillment-split.js, `calculateFulfillmentSplits`) -/

/-- Input line as consumed by the packer after cent conversion: the JS code
reads `line.quantity | 0` and `toCents(line.cost.totalAmount.amount)`. -/
structure Line where
  quantity : Int
  totalCents : Int
deriving DecidableEq

/-- Per-unit record pushed by the explosion step: `{ price, lineIndex }`. -/
structure SplitUnit where
  price : Int
  lineIndex : Nat
deriving DecidableEq

/-- Packer options, already in cents: defaults mirror
`dollarsToCents(opts.cap ?? 270)`, `dollarsToCents(opts.absorbPerHeavy ?? 60)`,
`opts.absorbItemsPerHeavy ?? 2`. -/
structure PackOpts where
  capCents : Int := 27000
  absorbPerHeavyCents : Int := 6000
  absorbItemsPerHeavy : Int := 2

/-- Step 1 of the packer for one line: skip non-positive quantities, split
`totalCents` into `quantity` shares, the first `remainder` shares one cent
larger (`price = i < remainder ? base + 1 : base`). -/
def explodeLine (index : Nat) (line : Line) : List SplitUnit :=
  if line.quantity ≤ 0 then []
  else
    let base := Int.fdiv line.totalCents line.quantity
    let remainder := line.totalCents - base * line.quantity
    (List.range line.quantity.toNat).map fun (i : Nat) =>
      { price := if (i : Int) < remainder then base + 1 else base, lineIndex := index }

/-- Step 1 of the packer, indexed walk: the tail of
`lines.forEach((line, index) => ...)` starting at index `n`. -/
def allUnitsFrom (n : Nat) : List Line → List SplitUnit
  | [] => []
  | l :: ls => explodeLine n l ++ allUnitsFrom (n + 1) ls

/-- Step 1 of the packer: `lines.forEach((line, index) => ...)` collecting all
exploded units in order. -/
def allUnits (lines : List Line) : List SplitUnit :=
  allUnitsFrom 0 lines

/-- Step 2 classification predicate: `u.price <= 0`. -/
def isZeroUnit (u : SplitUnit) : Bool := u.price ≤ 0

/-- Step 2 classification predicate: `else if (u.price > capCents)`. -/
def isHeavyUnit (cap : Int) (u : SplitUnit) : Bool := !(u.price ≤ 0) && (u.price > cap)

/-- Step 2 classification predicate: the remaining `else` branch. -/
def isNonHeavyUnit (cap : Int) (u : SplitUnit) : Bool := !(u.price ≤ 0) && !(u.price > cap)

/-- Step 3 inner loop for one heavy parcel: walk the pool in order, absorbing a
unit whenever `budgetItems > 0 && budgetCents >= unit.price`, consuming it from
the pool. Returns (absorbed units, remaining pool). -/
def absorbPass (budgetCents budgetItems : Int) : List SplitUnit → List SplitUnit × List SplitUnit
  | [] => ([], [])
  | u :: rest =>
    if budgetItems > 0 ∧ budgetCents ≥ u.price then
      let p := absorbPass (budgetCents - u.price) (budgetItems - 1) rest
      (u :: p.1, p.2)
    else
      let p := absorbPass budgetCents budgetItems rest
      (p.1, u :: p.2)

/-- Heavy parcel: one anchor unit plus the cheap units absorbed into it. -/
structure HeavyParcel where
  anchor : SplitUnit
  absorbed : List SplitUnit

/-- Step 3 outer loop: each heavy anchor runs `absorbPass` with a fresh budget
against the pool left over by the previous anchors. -/
def absorbAll (opts : PackOpts) : List SplitUnit → List SplitUnit → List HeavyParcel × List SplitUnit
  | [], pool => ([], pool)
  | h :: hs, pool =>
    let p := absorbPass opts.absorbPerHeavyCents opts.absorbItemsPerHeavy pool
    let rec' := absorbAll opts hs p.2
    ({ anchor := h, absorbed := p.1 } :: rec'.1, rec'.2)

/-- Residual bin: `{ capacity, items }`. -/
structure Bin where
  capacity : Int
  items : List SplitUnit

/-- Step 4 first-fit insertion: try existing bins in order
(`bin.capacity >= unit.price`), else push a new bin of capacity
`capCents - unit.price` at the end. -/
def insertUnit (cap : Int) (bins : List Bin) (u : SplitUnit) : List Bin :=
  match bins with
  | [] => [{ capacity := cap - u.price, items := [u] }]
  | b :: rest =>
    if b.capacity ≥ u.price then
      { capacity := b.capacity - u.price, items := b.items ++ [u] } :: rest
    else
      b :: insertUnit cap rest u

/-- Step 4: first-fit over the (descending-sorted) residual units. -/
def packResiduals (cap : Int) (units : List SplitUnit) : List Bin :=
  units.foldl (insertUnit cap) []

/-- Stable insertion of `a` into `l`: `a` goes immediately before the first
element it is strictly less than (per `lt`), hence after all elements equal to
it. -/
def insertStable (lt : α → α → Bool) (a : α) : List α → List α
  | [] => [a]
  | b :: l => if lt a b then a :: b :: l else b :: insertStable lt a l

/-- Stable sort by a strict comparator. ECMAScript `Array.prototype.sort` is
required to be stable, and a stable sort is uniquely determined by its
comparator, so this insertion sort computes exactly the reordering the JS
`sort((a, b) => ...)` calls produce. -/
def stableSortBy (lt : α → α → Bool) (l : List α) : List α :=
  l.foldl (fun acc x => insertStable lt x acc) []

/-- Consolidated parcel entry `{ lineIndex, quantity }`. -/
structure ParcelItem where
  lineIndex : Nat
  quantity : Nat
deriving DecidableEq

/-- First-occurrence order of the distinct elements of a list; this is the
iteration order of the JS `Map` used by `consolidateUnits`. -/
def firstOccurrences (l : List Nat) : List Nat :=
  l.foldl (fun acc i => if i ∈ acc then acc else acc ++ [i]) []

/-- Helper `consolidateUnits`: group identical `lineIndex` values of a unit
list into `{ lineIndex, quantity }`, in first-occurrence order. -/
def consolidateUnits (units : List SplitUnit) : List ParcelItem :=
  (firstOccurrences (units.map (·.lineIndex))).map fun i =>
    { lineIndex := i, quantity := units.countP fun u => u.lineIndex = i }

/-- Helper `expandParcel`: reverse of consolidation for the zero-unit edge
case; the JS version leaves `price` undefined (it is ignored afterwards), here
it is 0. -/
def expandParcel (items : List ParcelItem) : List SplitUnit :=
  items.flatMap fun p => List.replicate p.quantity { price := 0, lineIndex := p.lineIndex }

/-- Intermediate state of the packer after steps 1–4 (before consolidation). -/
structure PackState where
  zero : List SplitUnit
  heavyParcels : List HeavyParcel
  bins : List Bin

/-- Steps 1–4 of `calculateFulfillmentSplits`: explode, classify, sort the
non-heavy units ascending, absorb into heavy parcels, sort the residual units
descending, first-fit pack. -/
def runPack (lines : List Line) (opts : PackOpts) : PackState :=
  let cap := opts.capCents
  let all := allUnits lines
  let zero := all.filter isZeroUnit
  let heavy := all.filter (isHeavyUnit cap)
  let nonHeavy := all.filter (isNonHeavyUnit cap)
  let sortedNonHeavy := stableSortBy (fun a b => a.price < b.price) nonHeavy
  let ab := absorbAll opts heavy sortedNonHeavy
  let residualSorted := stableSortBy (fun a b => b.price < a.price) ab.2
  { zero := zero, heavyParcels := ab.1, bins := packResiduals cap residualSorted }

/-- Main packer `calculateFulfillmentSplits`: heavy parcels first, then
residual bins, each consolidated; zero-price units are merged into the first
parcel (via expand + re-consolidate, as in the JS) or form their own parcel. -/
def calculateFulfillmentSplits (lines : List Line) (opts : PackOpts := {}) : List (List ParcelItem) :=
  let st := runPack lines opts
  let base := st.heavyParcels.map (fun p => consolidateUnits (p.anchor :: p.absorbed))
      ++ st.bins.map fun b => consolidateUnits b.items
  if st.zero.isEmpty then base
  else
    match base with
    | [] => [consolidateUnits st.zero]
    | first :: rest => consolidateUnits (expandParcel first ++ st.zero) :: rest

/-- Unit-level view of the returned parcels: the k-th entry lists exactly the
units assigned to the k-th parcel returned by `calculateFulfillmentSplits`
(consolidation only groups units by line, it does not move them). -/
def parcelUnits (lines : List Line) (opts : PackOpts := {}) : List (List SplitUnit) :=
  let st := runPack lines opts
  let base := st.heavyParcels.map (fun p => p.anchor :: p.absorbed)
      ++ st.bins.map fun b => b.items
  if st.zero.isEmpty then base
  else
    match base with
    | [] => [st.zero]
    | first :: rest => (first ++ st.zero) :: rest

/-- Quantity assigned to line `i` by one consolidated parcel. -/
def itemQty (i : Nat) (parcel : List ParcelItem) : Nat :=
  ((parcel.filter fun p => p.lineIndex = i).map (·.quantity)).sum

/-- Number of units of line `i` in a unit list. -/
def unitCount (i : Nat) (units : List SplitUnit) : Nat :=
  units.countP fun u => u.lineIndex = i

-- Spec §8 Scenario A: 4 units at 1000 cents, cap 2700 → two parcels of 2.
example :
    calculateFulfillmentSplits [{ quantity := 4, totalCents := 4000 }] { capCents := 2700 }
      = [[{ lineIndex := 0, quantity := 2 }], [{ lineIndex := 0, quantity := 2 }]] := by
  decide

-- Spec §8 Scenario B: one unit at 30000 with cap 27000 anchors its own parcel
-- and absorbs two 2000-cent units within the 6000-cent / 2-item budget.
example :
    calculateFulfillmentSplits
      [{ quantity := 1, totalCents := 30000 }, { quantity := 2, totalCents := 4000 }] {}
      = [[{ lineIndex := 0, quantity := 1 }, { lineIndex := 1, quantity := 2 }]] := by
  decide

-- All-zero-price input yields one parcel (spec §4.1 edge case).
example :
    calculateFulfillmentSplits [{ quantity := 2, totalCents := 0 }] {}
      = [[{ lineIndex := 0, quantity := 2 }]] := by
  decide

/-! ## Explosion-step arithmetic (claim C4) -/

lemma map_range_if {α : Type _} (x y : α) (q r : Nat) (h : r ≤ q) :
    (List.range q).map (fun i => if i < r then x else y)
      = List.replicate r x ++ List.replicate (q - r) y := by
  induction q with
  | zero =>
    have hr0 : r = 0 := Nat.le_zero.mp h
    subst hr0
    simp
  | succ n ih =>
    by_cases hr : r ≤ n
    · rw [List.range_succ, List.map_append, ih hr]
      have hn : ¬ n < r := by omega
      have h1 : n + 1 - r = (n - r) + 1 := by omega
      simp only [List.map_cons, List.map_nil, if_neg hn, h1, List.replicate_succ']
      rw [List.append_assoc]
    · have hreq : r = n + 1 := by omega
      subst hreq
      rw [Nat.sub_self, List.replicate_zero, List.append_nil, List.eq_replicate_iff]
      refine ⟨by simp, ?_⟩
      intro b hb
      obtain ⟨i, hi, rfl⟩ := List.mem_map.mp hb
      rw [if_pos (List.mem_range.mp hi)]

/-- C4: for every line with quantity q > 0 whose total price is T integer
cents, the explosion step produces exactly q per-unit prices, the first
`T mod q` of them equal to `floor(T/q) + 1` and the rest equal to
`floor(T/q)`, and their sum equals T exactly (`/` and `%` are
floor-division and mathematical mod here since q > 0). -/
theorem explode_price_shares (idx : Nat) (line : Line) (hq : 0 < line.quantity) :
    (explodeLine idx line).length = line.quantity.toNat ∧
    (explodeLine idx line).map (·.price)
      = List.replicate (line.totalCents % line.quantity).toNat
          (line.totalCents / line.quantity + 1)
        ++ List.replicate
            (line.quantity.toNat - (line.totalCents % line.quantity).toNat)
            (line.totalCents / line.quantity) ∧
    ((explodeLine idx line).map (·.price)).sum = line.totalCents := by
  obtain ⟨q, T⟩ := line
  simp only at hq ⊢
  have hq0 : q ≠ 0 := ne_of_gt hq
  have hqnn : (0 : Int) ≤ q := le_of_lt hq
  have hb : T.fdiv q = T / q := Int.fdiv_eq_ediv T hqnn
  have hadd := Int.ediv_add_emod T q
  have hrem : T - T.fdiv q * q = T % q := by
    rw [hb]
    linear_combination -1 * hadd
  have hr0 : 0 ≤ T % q := Int.emod_nonneg T hq0
  have hrq : T % q < q := Int.emod_lt_of_pos T hq
  have hrle : (T % q).toNat ≤ q.toNat := by omega
  have key : (explodeLine idx { quantity := q, totalCents := T }).map (·.price)
      = List.replicate (T % q).toNat (T / q + 1)
        ++ List.replicate (q.toNat - (T % q).toNat) (T / q) := by
    simp only [explodeLine, if_neg (not_le.mpr hq), List.map_map]
    have hrem2 : T - T / q * q = T % q := by
      linear_combination -1 * hadd
    have hfun : ∀ i ∈ List.range q.toNat,
        ((·.price) ∘ fun i : Nat =>
            ({ price := if (i : Int) < T - T.fdiv q * q then T.fdiv q + 1 else T.fdiv q,
               lineIndex := idx } : SplitUnit)) i
          = (fun i : Nat => if i < (T % q).toNat then T / q + 1 else T / q) i := by
      intro i _
      simp only [Function.comp_apply, hb, hrem2]
      have hcond : ((i : Int) < T % q) ↔ i < (T % q).toNat := by omega
      by_cases hi : i < (T % q).toNat
      · rw [if_pos (hcond.mpr hi), if_pos hi]
      · rw [if_neg (fun hlt => hi (hcond.mp hlt)), if_neg hi]
    rw [List.map_congr_left hfun]
    exact map_range_if _ _ _ _ hrle
  refine ⟨?_, key, ?_⟩
  · have hlen := congrArg List.length key
    simp only [List.length_map, List.length_append, List.length_replicate] at hlen
    omega
  · rw [key]
    simp only [List.sum_append, List.sum_replicate, nsmul_eq_mul]
    have e1 : ((T % q).toNat : Int) = T % q := Int.toNat_of_nonneg hr0
    have e2 : ((q.toNat - (T % q).toNat : Nat) : Int) = q - T % q := by omega
    rw [e1, e2]
    linear_combination hadd

/-- Witness for C4 at quantity 3, total 1000 cents: shares are 334, 333, 333. -/
theorem explode_price_shares_witness :
    (0 : Int) < ({ quantity := 3, totalCents := 1000 } : Line).quantity ∧
    ((explodeLine 0 { quantity := 3, totalCents := 1000 }).length = 3 ∧
      (explodeLine 0 { quantity := 3, totalCents := 1000 }).map (·.price)
        = [334, 333, 333] ∧
      ((explodeLine 0 { quantity := 3, totalCents := 1000 }).map (·.price)).sum = 1000) :=
  ⟨by decide, by
    have h := explode_price_shares 0 { quantity := 3, totalCents := 1000 } (by decide)
    refine ⟨by simpa using h.1, ?_, by simpa using h.2.2⟩
    rw [h.2.1]
    decide⟩

/-! ## Quantity conservation through the packing pipeline (claim C3) -/

lemma unitCount_append (i : Nat) (a b : List SplitUnit) :
    unitCount i (a ++ b) = unitCount i a + unitCount i b :=
  List.countP_append _ _ _

lemma mem_explodeLine_lineIndex {u : SplitUnit} {idx : Nat} {l : Line}
    (h : u ∈ explodeLine idx l) : u.lineIndex = idx := by
  unfold explodeLine at h
  split at h
  · simp at h
  · obtain ⟨i, _, rfl⟩ := List.mem_map.mp h
    rfl

lemma length_explodeLine (idx : Nat) (l : Line) :
    (explodeLine idx l).length = if 0 < l.quantity then l.quantity.toNat else 0 := by
  unfold explodeLine
  by_cases h : l.quantity ≤ 0
  · rw [if_pos h, if_neg (by omega)]
    rfl
  · rw [if_neg h, if_pos (by omega)]
    simp

lemma unitCount_explodeLine (i idx : Nat) (l : Line) :
    unitCount i (explodeLine idx l)
      = if idx = i then (explodeLine idx l).length else 0 := by
  by_cases h : idx = i
  · subst h
    rw [if_pos rfl]
    unfold unitCount
    rw [List.countP_eq_length]
    intro u hu
    simpa using mem_explodeLine_lineIndex hu
  · rw [if_neg h]
    unfold unitCount
    rw [List.countP_eq_zero]
    intro u hu
    have := mem_explodeLine_lineIndex hu
    simp [this, h]

lemma unitCount_allUnitsFrom_of_lt {i n : Nat} (ls : List Line) (h : i < n) :
    unitCount i (allUnitsFrom n ls) = 0 := by
  induction ls generalizing n with
  | nil => rfl
  | cons l ls ih =>
    simp only [allUnitsFrom, unitCount_append, unitCount_explodeLine]
    rw [if_neg (by omega), ih (by omega)]

lemma unitCount_allUnitsFrom (n k : Nat) (ls : List Line) (hk : k < ls.length) :
    unitCount (n + k) (allUnitsFrom n ls)
      = if 0 < (ls.get ⟨k, hk⟩).quantity then (ls.get ⟨k, hk⟩).quantity.toNat else 0 := by
  induction ls generalizing n k with
  | nil => exact absurd hk (by simp)
  | cons l ls ih =>
    cases k with
    | zero =>
      simp only [allUnitsFrom, unitCount_append, unitCount_explodeLine]
      rw [if_pos (by omega), length_explodeLine,
        unitCount_allUnitsFrom_of_lt ls (by omega)]
      simp
    | succ k =>
      simp only [allUnitsFrom, unitCount_append, unitCount_explodeLine]
      rw [if_neg (by omega)]
      have hk2 : k < ls.length := by simpa using hk
      have heq : n + (k + 1) = (n + 1) + k := by omega
      rw [heq, ih (n + 1) k hk2]
      simp

lemma unitCount_allUnits (lines : List Line) (k : Nat) (hk : k < lines.length)
    (hq : 0 < (lines.get ⟨k, hk⟩).quantity) :
    unitCount k (allUnits lines) = (lines.get ⟨k, hk⟩).quantity.toNat := by
  have h := unitCount_allUnitsFrom 0 k lines hk
  rw [Nat.zero_add] at h
  rw [allUnits, h, if_pos hq]

lemma unitCount_classify (cap : Int) (i : Nat) (us : List SplitUnit) :
    unitCount i (us.filter isZeroUnit) + unitCount i (us.filter (isHeavyUnit cap))
      + unitCount i (us.filter (isNonHeavyUnit cap)) = unitCount i us := by
  unfold unitCount
  rw [List.countP_filter, List.countP_filter, List.countP_filter]
  induction us with
  | nil => rfl
  | cons u us ih =>
    simp only [List.countP_cons]
    have hx : (if (decide (u.lineIndex = i) && isZeroUnit u) = true then 1 else 0)
        + (if (decide (u.lineIndex = i) && isHeavyUnit cap u) = true then 1 else 0)
        + (if (decide (u.lineIndex = i) && isNonHeavyUnit cap u) = true then 1 else 0)
        = (if (decide (u.lineIndex = i)) = true then 1 else 0) := by
      cases hp : decide (u.lineIndex = i)
      · simp
      · simp only [Bool.true_and]
        cases hz : isZeroUnit u <;> cases hh : isHeavyUnit cap u <;>
          cases hn : isNonHeavyUnit cap u <;>
          simp_all [isZeroUnit, isHeavyUnit, isNonHeavyUnit] <;> omega
    omega

lemma countP_insertStable {α : Type _} (p : α → Bool) (lt : α → α → Bool) (a : α)
    (l : List α) :
    List.countP p (insertStable lt a l) = List.countP p (a :: l) := by
  induction l with
  | nil => rfl
  | cons b l ih =>
    rw [insertStable]
    split
    · rfl
    · rw [List.countP_cons, ih]
      simp only [List.countP_cons]
      omega

lemma countP_stableSortBy {α : Type _} (p : α → Bool) (lt : α → α → Bool) (l : List α) :
    List.countP p (stableSortBy lt l) = List.countP p l := by
  suffices h : ∀ acc : List α, List.countP p (l.foldl (fun acc x => insertStable lt x acc) acc)
      = List.countP p acc + List.countP p l by
    simpa [stableSortBy] using h []
  induction l with
  | nil => simp
  | cons x l ih =>
    intro acc
    rw [List.foldl_cons, ih, countP_insertStable]
    simp only [List.countP_cons]
    omega

lemma countP_absorbPass (p : SplitUnit → Bool) (bc bi : Int) (pool : List SplitUnit) :
    List.countP p (absorbPass bc bi pool).1 + List.countP p (absorbPass bc bi pool).2
      = List.countP p pool := by
  induction pool generalizing bc bi with
  | nil => rfl
  | cons u rest ih =>
    rw [absorbPass]
    split
    · simp only [List.countP_cons]
      have := ih (bc - u.price) (bi - 1)
      omega
    · simp only [List.countP_cons]
      have := ih bc bi
      omega

lemma countP_absorbAll (p : SplitUnit → Bool) (opts : PackOpts)
    (hs pool : List SplitUnit) :
    List.countP p ((absorbAll opts hs pool).1.flatMap fun hp => hp.anchor :: hp.absorbed)
      + List.countP p (absorbAll opts hs pool).2
      = List.countP p hs + List.countP p pool := by
  induction hs generalizing pool with
  | nil => simp [absorbAll]
  | cons h hs ih =>
    simp only [absorbAll, List.flatMap_cons, List.countP_append, List.countP_cons]
    have h1 := countP_absorbPass p opts.absorbPerHeavyCents opts.absorbItemsPerHeavy pool
    have h2 := ih (absorbPass opts.absorbPerHeavyCents opts.absorbItemsPerHeavy pool).2
    omega

lemma countP_insertUnit (p : SplitUnit → Bool) (cap : Int) (bins : List Bin)
    (u : SplitUnit) :
    List.countP p ((insertUnit cap bins u).flatMap fun b => b.items)
      = List.countP p (bins.flatMap fun b => b.items) + List.countP p [u] := by
  induction bins with
  | nil => simp [insertUnit]
  | cons b rest ih =>
    rw [insertUnit]
    split
    · simp only [List.flatMap_cons, List.countP_append]
      simp only [List.countP_cons, List.countP_nil]
      omega
    · simp only [List.flatMap_cons, List.countP_append, ih]
      simp only [List.countP_cons, List.countP_nil]
      omega

lemma countP_packResiduals (p : SplitUnit → Bool) (cap : Int) (us : List SplitUnit) :
    List.countP p ((packResiduals cap us).flatMap fun b => b.items)
      = List.countP p us := by
  suffices h : ∀ bins : List Bin,
      List.countP p ((us.foldl (insertUnit cap) bins).flatMap fun b => b.items)
        = List.countP p (bins.flatMap fun b => b.items) + List.countP p us by
    simpa [packResiduals] using h []
  induction us with
  | nil => simp
  | cons u us ih =>
    intro bins
    rw [List.foldl_cons, ih, countP_insertUnit]
    simp only [List.countP_cons, List.countP_nil]
    omega

lemma firstOccAux_mem (l : List Nat) (acc : List Nat) (x : Nat) :
    (x ∈ l.foldl (fun acc i => if i ∈ acc then acc else acc ++ [i]) acc) ↔ x ∈ acc ∨ x ∈ l := by
  induction l generalizing acc with
  | nil => simp
  | cons a l ih =>
    rw [List.foldl_cons]
    by_cases h : a ∈ acc
    · rw [if_pos h, ih]
      constructor
      · rintro (hx | hx)
        · exact Or.inl hx
        · exact Or.inr (List.mem_cons_of_mem a hx)
      · rintro (hx | hx)
        · exact Or.inl hx
        · rcases List.mem_cons.mp hx with rfl | hx2
          · exact Or.inl h
          · exact Or.inr hx2
    · rw [if_neg h, ih]
      simp only [List.mem_append, List.mem_singleton, List.mem_cons]
      tauto

lemma firstOccAux_nodup (l : List Nat) (acc : List Nat) (h : acc.Nodup) :
    (l.foldl (fun acc i => if i ∈ acc then acc else acc ++ [i]) acc).Nodup := by
  induction l generalizing acc with
  | nil => exact h
  | cons a l ih =>
    rw [List.foldl_cons]
    by_cases ha : a ∈ acc
    · rw [if_pos ha]
      exact ih acc h
    · rw [if_neg ha]
      refine ih _ ?_
      rw [List.nodup_append]
      refine ⟨h, List.nodup_singleton a, ?_⟩
      intro x hx hxa
      rw [List.mem_singleton] at hxa
      subst hxa
      exact ha hx

lemma mem_firstOccurrences {l : List Nat} {x : Nat} :
    x ∈ firstOccurrences l ↔ x ∈ l := by
  rw [firstOccurrences, firstOccAux_mem]
  simp

lemma nodup_firstOccurrences (l : List Nat) : (firstOccurrences l).Nodup :=
  firstOccAux_nodup l [] List.nodup_nil

lemma filter_eq_single_of_nodup {l : List Nat} {i : Nat} (hd : l.Nodup) (hm : i ∈ l) :
    l.filter (fun j => j = i) = [i] := by
  induction l with
  | nil => cases hm
  | cons a l ih =>
    rw [List.filter_cons]
    rcases List.mem_cons.mp hm with rfl | hm2
    · rw [if_pos (by simp)]
      have hnil : l.filter (fun j => j = i) = [] := by
        rw [List.filter_eq_nil_iff]
        intro j hj
        simp only [decide_eq_true_eq]
        rintro rfl
        exact (List.nodup_cons.mp hd).1 hj
      rw [hnil]
    · have hne : ¬ (a = i) := by
        rintro rfl
        exact (List.nodup_cons.mp hd).1 hm2
      rw [if_neg (by simpa using hne)]
      exact ih (List.nodup_cons.mp hd).2 hm2

lemma itemQty_consolidateUnits (i : Nat) (us : List SplitUnit) :
    itemQty i (consolidateUnits us) = unitCount i us := by
  unfold itemQty consolidateUnits
  rw [List.filter_map]
  have hcomp : ((fun p : ParcelItem => decide (p.lineIndex = i)) ∘ fun j : Nat =>
      ({ lineIndex := j, quantity := us.countP fun u => u.lineIndex = j } : ParcelItem))
      = fun j : Nat => decide (j = i) := rfl
  by_cases h : i ∈ us.map (·.lineIndex)
  · have hmem : i ∈ firstOccurrences (us.map (·.lineIndex)) := mem_firstOccurrences.mpr h
    have hnd := nodup_firstOccurrences (us.map (·.lineIndex))
    rw [hcomp, filter_eq_single_of_nodup hnd hmem]
    simp [unitCount]
  · have hfil : (firstOccurrences (us.map (·.lineIndex))).filter (fun j => decide (j = i))
        = [] := by
      rw [List.filter_eq_nil_iff]
      intro j hj
      simp only [decide_eq_true_eq]
      rintro rfl
      exact h (mem_firstOccurrences.mp hj)
    rw [hcomp, hfil]
    have hz : unitCount i us = 0 := by
      unfold unitCount
      rw [List.countP_eq_zero]
      intro u hu
      simp only [decide_eq_true_eq]
      intro he
      exact h (List.mem_map.mpr ⟨u, hu, he⟩)
    simp [hz]

lemma itemQty_cons (i : Nat) (p : ParcelItem) (items : List ParcelItem) :
    itemQty i (p :: items) = (if p.lineIndex = i then p.quantity else 0) + itemQty i items := by
  unfold itemQty
  rw [List.filter_cons]
  by_cases h : p.lineIndex = i
  · rw [if_pos (by simpa using h), if_pos h]
    simp
  · rw [if_neg (by simpa using h), if_neg h]
    simp

lemma unitCount_expandParcel (i : Nat) (items : List ParcelItem) :
    unitCount i (expandParcel items) = itemQty i items := by
  induction items with
  | nil => rfl
  | cons p items ih =>
    rw [itemQty_cons]
    unfold expandParcel at ih ⊢
    rw [List.flatMap_cons]
    unfold unitCount at ih ⊢
    rw [List.countP_append, List.countP_replicate, ih]
    by_cases h : p.lineIndex = i <;> simp [h]

lemma map_itemQty_calculate (lines : List Line) (opts : PackOpts) (i : Nat) :
    (calculateFulfillmentSplits lines opts).map (itemQty i)
      = (parcelUnits lines opts).map (unitCount i) := by
  simp only [calculateFulfillmentSplits, parcelUnits]
  set st := runPack lines opts with hst
  have hmm : ∀ ls : List (List SplitUnit),
      (ls.map consolidateUnits).map (itemQty i) = ls.map (unitCount i) := by
    intro ls
    rw [List.map_map]
    exact List.map_congr_left fun x _ => itemQty_consolidateUnits i x
  have hbase : (st.heavyParcels.map fun p => consolidateUnits (p.anchor :: p.absorbed))
      ++ (st.bins.map fun b => consolidateUnits b.items)
      = ((st.heavyParcels.map fun p => p.anchor :: p.absorbed)
          ++ (st.bins.map fun b => b.items)).map consolidateUnits := by
    rw [List.map_append, List.map_map, List.map_map]
    rfl
  rw [hbase]
  by_cases hz : st.zero.isEmpty
  · rw [if_pos hz, if_pos hz]
    exact hmm _
  · rw [if_neg hz, if_neg hz]
    cases hcb : (st.heavyParcels.map fun p => p.anchor :: p.absorbed)
        ++ (st.bins.map fun b => b.items) with
    | nil =>
      simp only [List.map_nil, List.map_cons]
      rw [itemQty_consolidateUnits]
    | cons first rest =>
      simp only [List.map_cons]
      congr 1
      · rw [itemQty_consolidateUnits, unitCount_append, unitCount_append,
          unitCount_expandParcel, itemQty_consolidateUnits]
      · exact hmm rest

lemma sum_map_unitCount (i : Nat) (ls : List (List SplitUnit)) :
    (ls.map (unitCount i)).sum = unitCount i (ls.flatMap id) := by
  induction ls with
  | nil => rfl
  | cons x ls ih =>
    simp only [List.map_cons, List.sum_cons, List.flatMap_cons, id_eq, unitCount_append, ih]

lemma flatMap_id_map {α β : Type _} (f : α → List β) (l : List α) :
    (l.map f).flatMap id = l.flatMap f := by
  induction l with
  | nil => rfl
  | cons x l ih => simp only [List.map_cons, List.flatMap_cons, id_eq, ih]

lemma unitCount_runPack (lines : List Line) (opts : PackOpts) (i : Nat) :
    unitCount i (runPack lines opts).zero
      + unitCount i ((runPack lines opts).heavyParcels.flatMap fun hp => hp.anchor :: hp.absorbed)
      + unitCount i ((runPack lines opts).bins.flatMap fun b => b.items)
      = unitCount i (allUnits lines) := by
  unfold runPack
  simp only []
  have h1 := unitCount_classify opts.capCents i (allUnits lines)
  have h2 := countP_stableSortBy (fun u => decide (u.lineIndex = i))
    (fun a b : SplitUnit => decide (a.price < b.price))
    ((allUnits lines).filter (isNonHeavyUnit opts.capCents))
  have h3 := countP_absorbAll (fun u => decide (u.lineIndex = i)) opts
    ((allUnits lines).filter (isHeavyUnit opts.capCents))
    (stableSortBy (fun a b : SplitUnit => decide (a.price < b.price))
      ((allUnits lines).filter (isNonHeavyUnit opts.capCents)))
  have h4 := countP_stableSortBy (fun u => decide (u.lineIndex = i))
    (fun a b : SplitUnit => decide (b.price < a.price))
    (absorbAll opts ((allUnits lines).filter (isHeavyUnit opts.capCents))
      (stableSortBy (fun a b : SplitUnit => decide (a.price < b.price))
        ((allUnits lines).filter (isNonHeavyUnit opts.capCents)))).2
  have h5 := countP_packResiduals (fun u => decide (u.lineIndex = i)) opts.capCents
    (stableSortBy (fun a b : SplitUnit => decide (b.price < a.price))
      (absorbAll opts ((allUnits lines).filter (isHeavyUnit opts.capCents))
        (stableSortBy (fun a b : SplitUnit => decide (a.price < b.price))
          ((allUnits lines).filter (isNonHeavyUnit opts.capCents)))).2)
  unfold unitCount at *
  omega

lemma unitCount_withZero (i : Nat) (zs : List SplitUnit) (base : List (List SplitUnit)) :
    unitCount i ((if zs.isEmpty then base
        else match base with
          | [] => [zs]
          | first :: rest => (first ++ zs) :: rest).flatMap id)
      = unitCount i (base.flatMap id) + unitCount i zs := by
  by_cases hz : zs.isEmpty
  · rw [if_pos hz, List.isEmpty_iff.mp hz]
    simp [unitCount]
  · rw [if_neg hz]
    cases base with
    | nil => simp [unitCount, unitCount_append]
    | cons first rest =>
      simp only [List.flatMap_cons, id_eq, unitCount_append]
      omega

lemma unitCount_parcelUnits (lines : List Line) (opts : PackOpts) (i : Nat) :
    unitCount i ((parcelUnits lines opts).flatMap id) = unitCount i (allUnits lines) := by
  unfold parcelUnits
  simp only []
  rw [unitCount_withZero, List.flatMap_append, flatMap_id_map, flatMap_id_map,
    unitCount_append]
  have h := unitCount_runPack lines opts i
  omega

/-- C3: for every input line set and options, and for every line with positive
quantity, the sum of that line's quantities across all parcels returned by
`calculateFulfillmentSplits` equals the line's original quantity. -/
theorem split_preserves_line_quantity (lines : List Line) (opts : PackOpts) (i : Nat)
    (hi : i < lines.length) (hq : 0 < (lines.get ⟨i, hi⟩).quantity) :
    ((calculateFulfillmentSplits lines opts).map (itemQty i)).sum
      = (lines.get ⟨i, hi⟩).quantity.toNat := by
  rw [map_itemQty_calculate, sum_map_unitCount, unitCount_parcelUnits]
  exact unitCount_allUnits lines i hi hq

/-- Witness for C3: a 3-unit line and a heavy 2-unit line; line 0 keeps total
quantity 3 across the returned parcels. -/
theorem split_preserves_line_quantity_witness :
    (0 < ([⟨3, 4500⟩, ⟨2, 30000⟩] : List Line).length) ∧
    ((calculateFulfillmentSplits ([⟨3, 4500⟩, ⟨2, 30000⟩] : List Line) {}).map (itemQty 0)).sum
      = 3 :=
  ⟨by decide, by
    simpa using split_preserves_line_quantity ([⟨3, 4500⟩, ⟨2, 30000⟩] : List Line) {} 0
      (by decide) (by decide)⟩

/-! ## Price-cap invariant for non-heavy parcels (claim C5) -/

lemma mem_insertStable {α : Type _} {lt : α → α → Bool} {a x : α} {l : List α}
    (h : x ∈ insertStable lt a l) : x = a ∨ x ∈ l := by
  induction l with
  | nil =>
    rw [insertStable] at h
    exact Or.inl (List.mem_singleton.mp h)
  | cons b l ih =>
    rw [insertStable] at h
    split at h
    · simpa using h
    · rcases List.mem_cons.mp h with rfl | h2
      · exact Or.inr (List.mem_cons_self _ _)
      · rcases ih h2 with rfl | h3
        · exact Or.inl rfl
        · exact Or.inr (List.mem_cons_of_mem _ h3)

lemma mem_stableSortAux {α : Type _} {lt : α → α → Bool} {x : α} :
    ∀ (l acc : List α), x ∈ l.foldl (fun acc y => insertStable lt y acc) acc →
      x ∈ acc ∨ x ∈ l
  | [], _, h => Or.inl h
  | y :: l, acc, h => by
    rw [List.foldl_cons] at h
    rcases mem_stableSortAux l (insertStable lt y acc) h with h3 | h3
    · rcases mem_insertStable h3 with rfl | h4
      · exact Or.inr (List.mem_cons_self _ _)
      · exact Or.inl h4
    · exact Or.inr (List.mem_cons_of_mem _ h3)

lemma mem_stableSortBy {α : Type _} {lt : α → α → Bool} {x : α} {l : List α}
    (h : x ∈ stableSortBy lt l) : x ∈ l := by
  rcases mem_stableSortAux l [] h with h2 | h2
  · simp at h2
  · exact h2

lemma mem_absorbPass_right {x : SplitUnit} :
    ∀ {bc bi : Int} {pool : List SplitUnit}, x ∈ (absorbPass bc bi pool).2 → x ∈ pool := by
  intro bc bi pool
  induction pool generalizing bc bi with
  | nil => intro h; simpa [absorbPass] using h
  | cons u rest ih =>
    intro h
    rw [absorbPass] at h
    split at h
    · exact List.mem_cons_of_mem _ (ih h)
    · rcases List.mem_cons.mp h with rfl | h2
      · exact List.mem_cons_self _ _
      · exact List.mem_cons_of_mem _ (ih h2)

lemma mem_absorbAll_right {opts : PackOpts} {x : SplitUnit} :
    ∀ {hs pool : List SplitUnit}, x ∈ (absorbAll opts hs pool).2 → x ∈ pool := by
  intro hs
  induction hs with
  | nil => intro pool h; simpa [absorbAll] using h
  | cons a hs ih =>
    intro pool h
    rw [absorbAll] at h
    exact mem_absorbPass_right (ih h)

lemma absorbAll_anchor_mem {opts : PackOpts} {hp : HeavyParcel} :
    ∀ {hs pool : List SplitUnit}, hp ∈ (absorbAll opts hs pool).1 → hp.anchor ∈ hs := by
  intro hs
  induction hs with
  | nil => intro pool h; simp [absorbAll] at h
  | cons a hs ih =>
    intro pool h
    rw [absorbAll] at h
    rcases List.mem_cons.mp h with rfl | h2
    · exact List.mem_cons_self _ _
    · exact List.mem_cons_of_mem _ (ih h2)

/-- Invariant of a first-fit bin: nonnegative remaining capacity, and item
prices plus remaining capacity give the cap exactly. -/
def binInv (cap : Int) (b : Bin) : Prop :=
  0 ≤ b.capacity ∧ (b.items.map (·.price)).sum + b.capacity = cap

lemma insertUnit_inv {cap : Int} {bins : List Bin} {u : SplitUnit}
    (hb : ∀ b ∈ bins, binInv cap b) (hu : u.price ≤ cap) :
    ∀ b ∈ insertUnit cap bins u, binInv cap b := by
  induction bins with
  | nil =>
    intro b hbmem
    rw [insertUnit] at hbmem
    rcases List.mem_singleton.mp hbmem with rfl
    refine ⟨by simpa using hu, by simp⟩
  | cons c rest ih =>
    intro b hbmem
    rw [insertUnit] at hbmem
    by_cases hcap : c.capacity ≥ u.price
    · rw [if_pos hcap] at hbmem
      rcases List.mem_cons.mp hbmem with rfl | h2
      · have hc := hb c (List.mem_cons_self _ _)
        refine ⟨by simp; omega, ?_⟩
        simp only [List.map_append, List.sum_append, List.map_cons, List.map_nil,
          List.sum_cons, List.sum_nil]
        have := hc.2
        omega
      · exact hb b (List.mem_cons_of_mem _ h2)
    · rw [if_neg hcap] at hbmem
      rcases List.mem_cons.mp hbmem with rfl | h2
      · exact hb b (List.mem_cons_self _ _)
      · exact ih (fun v hv => hb v (List.mem_cons_of_mem _ hv)) b h2

lemma packResiduals_inv_aux {cap : Int} :
    ∀ (us : List SplitUnit) (bins : List Bin), (∀ u ∈ us, u.price ≤ cap) →
      (∀ b ∈ bins, binInv cap b) → ∀ b ∈ us.foldl (insertUnit cap) bins, binInv cap b := by
  intro us
  induction us with
  | nil => intro bins _ hbins b hbm; exact hbins b hbm
  | cons u us ih =>
    intro bins hus hbins b hbm
    rw [List.foldl_cons] at hbm
    exact ih (insertUnit cap bins u) (fun v hv => hus v (List.mem_cons_of_mem _ hv))
      (insertUnit_inv hbins (hus u (List.mem_cons_self _ _))) b hbm

lemma packResiduals_inv {cap : Int} {us : List SplitUnit}
    (hus : ∀ u ∈ us, u.price ≤ cap) :
    ∀ b ∈ packResiduals cap us, binInv cap b :=
  packResiduals_inv_aux us [] hus (by simp)

lemma runPack_zero_prices (lines : List Line) (opts : PackOpts) :
    ∀ u ∈ (runPack lines opts).zero, u.price ≤ 0 := by
  intro u hu
  unfold runPack at hu
  simp only [] at hu
  have := (List.mem_filter.mp hu).2
  unfold isZeroUnit at this
  simpa using this

lemma runPack_anchor_heavy (lines : List Line) (opts : PackOpts) :
    ∀ hp ∈ (runPack lines opts).heavyParcels, opts.capCents < hp.anchor.price := by
  intro hp hhp
  unfold runPack at hhp
  simp only [] at hhp
  have hmem := absorbAll_anchor_mem hhp
  have := (List.mem_filter.mp hmem).2
  unfold isHeavyUnit at this
  simp only [Bool.and_eq_true, decide_eq_true_eq] at this
  exact this.2

lemma runPack_bins_inv (lines : List Line) (opts : PackOpts) :
    ∀ b ∈ (runPack lines opts).bins, binInv opts.capCents b := by
  intro b hb
  unfold runPack at hb
  simp only [] at hb
  refine packResiduals_inv ?_ b hb
  intro u hu
  have h1 := mem_stableSortBy hu
  have h2 := mem_absorbAll_right h1
  have h3 := mem_stableSortBy h2
  have := (List.mem_filter.mp h3).2
  unfold isNonHeavyUnit at this
  simp only [Bool.and_eq_true, Bool.not_eq_true', decide_eq_false_iff_not] at this
  omega

lemma sum_prices_nonpos {zs : List SplitUnit} (h : ∀ u ∈ zs, u.price ≤ 0) :
    (zs.map (·.price)).sum ≤ 0 := by
  induction zs with
  | nil => simp
  | cons u zs ih =>
    simp only [List.map_cons, List.sum_cons]
    have h1 := h u (List.mem_cons_self _ _)
    have h2 := ih fun v hv => h v (List.mem_cons_of_mem _ hv)
    omega

lemma basePart_bound (lines : List Line) (opts : PackOpts) (P : List SplitUnit)
    (hP : P ∈ ((runPack lines opts).heavyParcels.map fun p => p.anchor :: p.absorbed)
        ++ ((runPack lines opts).bins.map fun b => b.items))
    (hnh : ∀ u ∈ P, ¬ opts.capCents < u.price) :
    (P.map (·.price)).sum ≤ opts.capCents := by
  rcases List.mem_append.mp hP with h1 | h1
  · obtain ⟨hp, hhp, rfl⟩ := List.mem_map.mp h1
    exact absurd (runPack_anchor_heavy lines opts hp hhp)
      (hnh hp.anchor (List.mem_cons_self _ _))
  · obtain ⟨b, hbm, rfl⟩ := List.mem_map.mp h1
    have hinv := runPack_bins_inv lines opts b hbm
    have h2 := hinv.1
    have h3 := hinv.2
    omega

/-- C5: for every input and options, every parcel produced by the packer that
contains no heavy unit (no unit whose price exceeds `capCents`) has a total
unit price of at most `capCents`, including after zero-price units are
appended; `parcelUnits` is the unit-level view of the parcels returned by
`calculateFulfillmentSplits` (see `map_itemQty_calculate`). -/
theorem nonheavy_parcel_within_cap (lines : List Line) (opts : PackOpts)
    (P : List SplitUnit) (hP : P ∈ parcelUnits lines opts)
    (hnh : ∀ u ∈ P, ¬ opts.capCents < u.price) :
    (P.map (·.price)).sum ≤ opts.capCents := by
  unfold parcelUnits at hP
  simp only [] at hP
  by_cases hz : (runPack lines opts).zero.isEmpty
  · rw [if_pos hz] at hP
    exact basePart_bound lines opts P hP hnh
  · rw [if_neg hz] at hP
    cases hc : ((runPack lines opts).heavyParcels.map fun p => p.anchor :: p.absorbed)
        ++ ((runPack lines opts).bins.map fun b => b.items) with
    | nil =>
      rw [hc] at hP
      have hPz : P = (runPack lines opts).zero := by simpa using hP
      have hzero := runPack_zero_prices lines opts
      cases hzz : (runPack lines opts).zero with
      | nil =>
        rw [hzz] at hz
        simp at hz
      | cons u0 us =>
        rw [hPz, hzz]
        simp only [List.map_cons, List.sum_cons]
        have h0 : ¬ opts.capCents < u0.price := by
          apply hnh
          rw [hPz, hzz]
          exact List.mem_cons_self _ _
        have htail : (us.map (·.price)).sum ≤ 0 := by
          apply sum_prices_nonpos
          intro v hv
          apply hzero
          rw [hzz]
          exact List.mem_cons_of_mem _ hv
        omega
    | cons first rest =>
      rw [hc] at hP
      rcases List.mem_cons.mp hP with rfl | hrest
      · have hfm : first ∈ ((runPack lines opts).heavyParcels.map fun p => p.anchor :: p.absorbed)
            ++ ((runPack lines opts).bins.map fun b => b.items) := by
          rw [hc]
          exact List.mem_cons_self _ _
        rcases List.mem_append.mp hfm with h1 | h1
        · obtain ⟨hp, hhp, rfl⟩ := List.mem_map.mp h1
          refine absurd (runPack_anchor_heavy lines opts hp hhp) (hnh hp.anchor ?_)
          exact List.mem_append_left _ (List.mem_cons_self _ _)
        · obtain ⟨b, hbm, rfl⟩ := List.mem_map.mp h1
          rw [List.map_append, List.sum_append]
          have hinv := runPack_bins_inv lines opts b hbm
          have h2 := hinv.1
          have h3 := hinv.2
          have hzsum : (((runPack lines opts).zero).map (·.price)).sum ≤ 0 :=
            sum_prices_nonpos (runPack_zero_prices lines opts)
          omega
      · have hPm : P ∈ ((runPack lines opts).heavyParcels.map fun p => p.anchor :: p.absorbed)
            ++ ((runPack lines opts).bins.map fun b => b.items) := by
          rw [hc]
          exact List.mem_cons_of_mem _ hrest
        exact basePart_bound lines opts P hPm hnh

/-- Witness for C5: cap 2700, one 4-unit line at 1000 cents per unit; the
first returned parcel holds two units, no heavy unit, total 2000 ≤ 2700. -/
theorem nonheavy_parcel_within_cap_witness :
    ([⟨1000, 0⟩, ⟨1000, 0⟩] : List SplitUnit)
        ∈ parcelUnits ([⟨4, 4000⟩] : List Line) { capCents := 2700 } ∧
    (∀ u ∈ ([⟨1000, 0⟩, ⟨1000, 0⟩] : List SplitUnit), ¬ (2700 : Int) < u.price) ∧
    (([⟨1000, 0⟩, ⟨1000, 0⟩] : List SplitUnit).map (·.price)).sum ≤ 2700 :=
  ⟨by decide, by decide,
    nonheavy_parcel_within_cap ([⟨4, 4000⟩] : List Line) { capCents := 2700 }
      ([⟨1000, 0⟩, ⟨1000, 0⟩] : List SplitUnit) (by decide) (by decide)⟩

/-! ## Saga store, statuses, webhook payloads -/

/-- Status values of `additional_shipping_requests.status`, a closed set of
strings in the source. -/
inductive Status
  | PENDING
  | APP_DISABLED
  | AWAITING_PAYMENT
  | COMPLETED
  | FAILED
  | CANCELLED
deriving DecidableEq

/-- Row of `additional_shipping_requests`; the natural unique key
`primary_order_id` stands in for the serial `id` used by the JS updates
(timestamps other than the two cancellation stamps are omitted). -/
structure SplitRequestRow where
  primaryOrderId : Nat
  shopDomain : String
  userChoice : Bool
  status : Status
  calculatedParcels : Option Int
  shippingLevel : Int
  additionalShippingAmount : Option Int
  errorLog : Option String
  paymentOrderId : Option Nat
  draftOrderId : Option String
  primaryOrderCancelledAt : Option String
  paymentOrderCancelledAt : Option String
deriving DecidableEq

/-- Row of `additional_shipping_request_fulfillment_holds`. -/
structure HoldRow where
  fulfillmentHoldId : String
  fulfillmentOrderId : String
  requestId : Nat
  released : Bool
deriving DecidableEq

/-- Row of `core_orders` (fields the handlers write). -/
structure OrderRow where
  orderId : Nat
  orderName : String
  shopDomain : String
deriving DecidableEq

/-- Row of `core_customers` (key fields only). -/
structure CustomerRow where
  customerId : Nat
  shopDomain : String
deriving DecidableEq

/-- The Supabase store visible to the handlers. `settings` models the
read-only `additional_shipping_request_settings.app_enabled` relation. -/
structure Store where
  shops : List String
  settings : List (String × Bool)
  orders : List OrderRow
  customers : List CustomerRow
  requests : List SplitRequestRow
  holds : List HoldRow
deriving DecidableEq

/-- Upsert of `core_shops` keyed by `shop_domain`. -/
def upsertShop (s : Store) (shop : String) : Store :=
  if shop ∈ s.shops then s else { s with shops := s.shops ++ [shop] }

/-- Upsert of `core_orders` keyed by `order_id`. -/
def upsertOrder (s : Store) (o : OrderRow) : Store :=
  { s with orders :=
      if s.orders.any fun r => r.orderId = o.orderId then
        s.orders.map fun r => if r.orderId = o.orderId then o else r
      else s.orders ++ [o] }

/-- Upsert of `core_customers` keyed by `customer_id`. -/
def upsertCustomer (s : Store) (c : CustomerRow) : Store :=
  { s with customers :=
      if s.customers.any fun r => r.customerId = c.customerId then
        s.customers.map fun r => if r.customerId = c.customerId then c else r
      else s.customers ++ [c] }

/-- Select on `additional_shipping_requests` by `primary_order_id`. -/
def findRequest (s : Store) (primaryOrderId : Nat) : Option SplitRequestRow :=
  s.requests.find? fun r => r.primaryOrderId = primaryOrderId

/-- Select on `additional_shipping_requests` by `payment_order_id`. -/
def findRequestByPaymentOrder (s : Store) (paymentOrderId : Nat) : Option SplitRequestRow :=
  s.requests.find? fun r => r.paymentOrderId = some paymentOrderId

/-- Upsert of `additional_shipping_requests` keyed by `primary_order_id`. -/
def upsertRequest (s : Store) (row : SplitRequestRow) : Store :=
  { s with requests :=
      if s.requests.any fun r => r.primaryOrderId = row.primaryOrderId then
        s.requests.map fun r => if r.primaryOrderId = row.primaryOrderId then row else r
      else s.requests ++ [row] }

/-- Update of `additional_shipping_requests` rows matching the key. -/
def updateRequest (s : Store) (id : Nat) (f : SplitRequestRow → SplitRequestRow) : Store :=
  { s with requests := s.requests.map fun r => if r.primaryOrderId = id then f r else r }

/-- Helper `logDbError` (split.js lines 15–30): best-effort update that sets
status FAILED and records the error; its own store failures are swallowed
(store writes succeed in the model, so the update is applied). -/
def logDbError (s : Store) (recordId : Nat) (msg : String) : Store :=
  updateRequest s recordId fun r => { r with status := Status.FAILED, errorLog := some msg }

/-- Webhook note attribute `{ name, value }`. -/
structure Attr where
  name : String
  value : String
deriving DecidableEq

/-- Helper `getAttributeValueByName`: find by name; `attribute?.value || null`
turns an empty string into null. -/
def getAttributeValueByName (attrs : List Attr) (name : String) : Option String :=
  match attrs.find? fun a => a.name = name with
  | none => none
  | some a => if a.value = "" then none else some a.value

/-- Leading decimal digits of a character list. -/
def leadingDigits : List Char → List Char
  | [] => []
  | c :: cs => if c.isDigit then c :: leadingDigits cs else []

/-- Numeric value of a digit list. -/
def digitsToNat (cs : List Char) : Nat :=
  cs.foldl (fun acc c => acc * 10 + (c.toNat - 48)) 0

/-- JS `parseInt(s, 10)` restricted to the shapes the handlers meet: an
optional minus sign followed by leading digits; `none` models `NaN`. -/
def parseIntJS (s : String) : Option Int :=
  match s.data with
  | '-' :: cs =>
    let ds := leadingDigits cs
    if ds.isEmpty then none else some (-(digitsToNat ds : Int))
  | cs =>
    let ds := leadingDigits cs
    if ds.isEmpty then none else some (digitsToNat ds : Int)

/-- The parsed `split_fulfillment_count`:
`parseInt(getAttributeValueByName(...) || 0, 10)`; a missing attribute parses
as 0, a non-numeric one as `none` (NaN). -/
def parsedFulfillmentCount (attrs : List Attr) : Option Int :=
  match getAttributeValueByName attrs "split_fulfillment_count" with
  | none => some 0
  | some v => parseIntJS v

/-- The precheck guard `!splitChoice || fulfillmentCount <= 1` (NaN compares
false). -/
def noSplitRequested (attrs : List Attr) : Bool :=
  (getAttributeValueByName attrs "split_choice").isNone ||
    (match parsedFulfillmentCount attrs with
     | some c => c ≤ 1
     | none => false)

/-- Character-list version of "starts with". -/
def startsWithChars : List Char → List Char → Bool
  | _, [] => true
  | [], _ :: _ => false
  | c :: cs, d :: ds => c = d && startsWithChars cs ds

/-- Character-list version of substring containment. -/
def containsChars : List Char → List Char → Bool
  | [], pat => pat.isEmpty
  | c :: rest, pat => startsWithChars (c :: rest) pat || containsChars rest pat

/-- Substring test mirroring JS `String.includes`. -/
def strContains (s pat : String) : Bool := containsChars s.data pat.data

/-- Helper `getParcelPriceByShippingLineTitle` (app/utils.server.js). -/
def getParcelPriceByShippingLineTitle (title countryCode : Option String) : Option Int :=
  match title, countryCode with
  | some t, some c =>
    if strContains t "1档邮政" || strContains t "#1" then some (if c = "CN" then 25 else 38)
    else if strContains t "2档邮政" || strContains t "#2" then some (if c = "CN" then 25 else 38)
    else if strContains t "3档邮政" || strContains t "#3" then some (if c = "CN" then 38 else 38)
    else if strContains t "4档邮政" || strContains t "#4" then some (if c = "CN" then 15 else 38)
    else if strContains t "5档邮政" || strContains t "#5" then some (if c = "CN" then 38 else 38)
    else none
  | _, _ => none

/-- Helper `getShippingLineLevel` (app/utils.server.js). -/
def getShippingLineLevel (title countryCode : Option String) : Option Int :=
  match title, countryCode with
  | some t, some c =>
    if strContains t "1档邮政" || strContains t "#1" then some (if c = "CN" then 1 else 2)
    else if strContains t "2档邮政" || strContains t "#2" then some (if c = "CN" then 2 else 2)
    else if strContains t "3档邮政" || strContains t "#3" then some (if c = "CN" then 3 else 2)
    else if strContains t "4档邮政" || strContains t "#4" then some (if c = "CN" then 4 else 2)
    else if strContains t "5档邮政" || strContains t "#5" then some (if c = "CN" then 5 else 2)
    else none
  | _, _ => none

/-! ## Split handler (app/handlers/split.js) -/

/-- One aliased `fulfillmentOrderHold` sub-result:
`fulfillmentHold { id }` plus `userErrors` (messages only). -/
structure HoldResult where
  holdId : Option String
  userErrors : List String
deriving DecidableEq

/-- The one field of the fetched OPEN fulfillment order the model needs. -/
structure FulfillmentOrder where
  id : String
deriving DecidableEq

/-- External responses consumed by one run of the split handler; the handler
is deterministic given these. `phase2Error` abstracts the first failing step
of the draft-create / draft-complete / order-insert / invoice sequence. -/
structure GatewayEnv where
  primaryFO : Option FulfillmentOrder
  splitUserErrors : List String
  splitResults : List (String × String)
  holdResults : List HoldResult
  holdInsertOk : Bool
  phase2Error : Option String
  paymentOrder : Nat × String
  draftOrderId : String
deriving DecidableEq

/-- Gateway operations, recorded in call order. `draftPhase` stands for the
draft-create / draft-complete / invoice-send sequence of phase 2. -/
inductive GCall
  | fetchFulfillmentOrders
  | splitCall
  | holdCall (ids : List String)
  | releaseCall (holdIds : List String)
  | draftPhase
deriving DecidableEq

/-- Observable outcome of a handler run. -/
inductive HandlerResult
  | skipped (reason : String)
  | success
  | raised (msg : String)
deriving DecidableEq

/-- Store, gateway-call trace and outcome of one handler run. -/
structure HandlerOut where
  store : Store
  calls : List GCall
  result : HandlerResult
deriving DecidableEq

/-- First-occurrence deduplication, the iteration order of a JS `Set`. -/
def dedupFirst (l : List String) : List String :=
  l.foldl (fun acc x => if x ∈ acc then acc else acc ++ [x]) []

/-- Partition of the aliased hold results (split.js lines 310–318):
successful hold ids in order, and all user errors concatenated. -/
def holdOutcome (results : List HoldResult) : List String × List String :=
  (results.filterMap (·.holdId), results.flatMap (·.userErrors))

/-- Phase 4 of the split handler from the split mutation onward (split.js
lines 258–363): split errors raise; a batched hold follows; any hold error
triggers release of the batch's successful holds, `logDbError` and a raise;
otherwise hold rows are inserted (insert failure is fatal). Error-log text is
abbreviated (the JS embeds JSON dumps). -/
def splitHoldPhase (env : GatewayEnv) (s : Store) (requestId : Nat)
    (primaryFOid : String) : HandlerOut :=
  if !env.splitUserErrors.isEmpty then
    { store := logDbError s requestId "Phase 1 Error: Split Failed"
      calls := [GCall.splitCall]
      result := HandlerResult.raised "Split Failed" }
  else
    let ids := dedupFirst
      (primaryFOid :: (env.splitResults.map (·.1) ++ env.splitResults.map (·.2)))
    let successfulHoldIds := (holdOutcome env.holdResults).1
    let holdErrors := (holdOutcome env.holdResults).2
    if !holdErrors.isEmpty then
      { store := logDbError s requestId "Phase 1 Error: Hold Phase Failed"
        calls := [GCall.splitCall, GCall.holdCall ids]
            ++ (if successfulHoldIds.isEmpty then [] else [GCall.releaseCall successfulHoldIds])
        result := HandlerResult.raised "Hold Phase Failed" }
    else
      let holdRows := (successfulHoldIds.zip ids).map fun pr =>
        { fulfillmentHoldId := pr.1
          fulfillmentOrderId := pr.2
          requestId := requestId
          released := false : HoldRow }
      if env.holdInsertOk then
        { store := { s with holds := s.holds ++ holdRows }
          calls := [GCall.splitCall, GCall.holdCall ids]
          result := HandlerResult.success }
      else
        { store := logDbError s requestId
            "Phase 1 Error: Database failed to save hold records"
          calls := [GCall.splitCall, GCall.holdCall ids]
          result := HandlerResult.raised
            "Database failed to save hold records. Manual intervention required." }

/-- Phases 5–6 of the split handler (split.js lines 365–507): draft order,
completion, payment-order reference insert, invoice (collapsed into
`phase2Error` / `paymentOrder`), then the final AWAITING_PAYMENT update. -/
def phase2AndFinalize (env : GatewayEnv) (s : Store) (requestId : Nat)
    (shop : String) : HandlerOut :=
  match env.phase2Error with
  | some e =>
    { store := logDbError s requestId ("Phase 2 Error: " ++ e)
      calls := [GCall.draftPhase]
      result := HandlerResult.raised e }
  | none =>
    let s5 := { s with orders := s.orders ++
      [{ orderId := env.paymentOrder.1
         orderName := env.paymentOrder.2
         shopDomain := shop : OrderRow }] }
    let s6 := updateRequest s5 requestId fun r =>
      { r with
        status := Status.AWAITING_PAYMENT
        paymentOrderId := some env.paymentOrder.1
        draftOrderId := some env.draftOrderId
        errorLog := none }
    { store := s6, calls := [GCall.draftPhase], result := HandlerResult.success }

/-- Steps of the split handler after the idempotent-init upsert (split.js
lines 201–523): user-choice / app-enabled short-circuits, the
fulfillment-order fetch, phase 4 (split + hold) and phases 5–6. -/
def afterInit (env : GatewayEnv) (s4 : Store) (orderId : Nat) (shop : String)
    (splitChoiceBoolean isAppEnabled : Bool) : HandlerOut :=
  if !splitChoiceBoolean then
    { store := s4, calls := [], result := HandlerResult.skipped "user_chose_no_split" }
  else if !isAppEnabled then
    { store := s4, calls := [], result := HandlerResult.skipped "app_disabled" }
  else
    match env.primaryFO with
    | none =>
      { store := logDbError s4 orderId "No OPEN fulfillment order found"
        calls := [GCall.fetchFulfillmentOrders]
        result := HandlerResult.raised "No OPEN fulfillment order found" }
    | some fo =>
      let r1 := splitHoldPhase env s4 orderId fo.id
      match r1.result with
      | HandlerResult.success =>
        let r2 := phase2AndFinalize env r1.store orderId shop
        { store := r2.store
          calls := GCall.fetchFulfillmentOrders :: (r1.calls ++ r2.calls)
          result := r2.result }
      | _ =>
        { store := r1.store
          calls := GCall.fetchFulfillmentOrders :: r1.calls
          result := r1.result }

/-- Webhook payload fields consumed by the split handler. -/
structure OrderPayload where
  orderId : Option Nat
  orderGid : Option String
  orderName : Option String
  noteAttributes : List Attr
  lineItems : List Line
  shippingLines : List String
  customerId : Option Nat
  countryCode : Option String
  customerLocale : Option String
deriving DecidableEq

/-- Split handler `handleSplitPrimaryOrderCreated` (app/handlers/split.js),
as a pure function of the payload, the store and the gateway responses.
Store writes succeed in the model; the split-payload construction (which
fulfillment-order line items go into which split) is not modelled — the
gateway's responses to it are `GatewayEnv.splitResults`. -/
def handleSplitPrimaryOrderCreated (env : GatewayEnv) (s0 : Store) (shop : String)
    (p : OrderPayload) : HandlerOut :=
  match p.orderId, p.orderGid, p.orderName with
  | some orderId, some _, some orderName =>
    match p.customerId with
    | some customerId =>
      if p.shippingLines.isEmpty then
        { store := s0, calls := [], result := HandlerResult.skipped "no_shipping_lines" }
      else if noSplitRequested p.noteAttributes then
        { store := s0, calls := [], result := HandlerResult.skipped "no_split_required" }
      else
        let splitChoiceBoolean :=
          getAttributeValueByName p.noteAttributes "split_choice" = some "yes"
        let fulfillmentCount := parsedFulfillmentCount p.noteAttributes
        -- recommendedParcels feeds only the unmodelled split-payload construction
        let _recommendedParcels := calculateFulfillmentSplits p.lineItems
        let costPerParcel :=
          getParcelPriceByShippingLineTitle p.shippingLines.head? p.countryCode
        let shippingLineLevel :=
          getShippingLineLevel p.shippingLines.head? p.countryCode
        match shippingLineLevel, costPerParcel with
        | some level, some cost =>
          let additionalShippingAmount : Option Int :=
            fulfillmentCount.map fun c => (max 0 (c - 1)) * cost
          let s1 := upsertShop s0 shop
          let s2 := upsertOrder s1
            { orderId := orderId, orderName := orderName, shopDomain := shop }
          let s3 := upsertCustomer s2 { customerId := customerId, shopDomain := shop }
          let existing := findRequest s3 orderId
          let isTerminal := match existing with
            | some r => r.status = Status.COMPLETED || r.status = Status.FAILED
            | none => false
          if isTerminal then
            { store := s3, calls := []
              result := HandlerResult.skipped "already_completed_or_failed" }
          else
            let isAppEnabled := ((s3.settings.find? fun kv => kv.1 = shop).map (·.2)).getD false
            let newStatus :=
              if !isAppEnabled then Status.APP_DISABLED
              else if splitChoiceBoolean then Status.PENDING
              else Status.COMPLETED
            let upserted : SplitRequestRow := match existing with
              | some old =>
                { old with
                  shopDomain := shop
                  userChoice := splitChoiceBoolean
                  status := newStatus
                  calculatedParcels := fulfillmentCount
                  shippingLevel := level
                  additionalShippingAmount := additionalShippingAmount
                  errorLog := none }
              | none =>
                { primaryOrderId := orderId
                  shopDomain := shop
                  userChoice := splitChoiceBoolean
                  status := newStatus
                  calculatedParcels := fulfillmentCount
                  shippingLevel := level
                  additionalShippingAmount := additionalShippingAmount
                  errorLog := none
                  paymentOrderId := none
                  draftOrderId := none
                  primaryOrderCancelledAt := none
                  paymentOrderCancelledAt := none }
            afterInit env (upsertRequest s3 upserted) orderId shop
              splitChoiceBoolean isAppEnabled
        | _, _ =>
          { store := s0, calls := []
            result := HandlerResult.skipped "unknown_shipping_level_or_price" }
    | none => { store := s0, calls := [], result := HandlerResult.skipped "missing_customer" }
  | _, _, _ =>
    { store := s0, calls := [], result := HandlerResult.skipped "missing_order_fields" }

/-! ## Cancellation webhooks and payment-captured webhook -/

/-- Webhook HTTP response shapes the routes produce. -/
inductive WebhookResponse
  | empty
  | success
  | message (m : String)
deriving DecidableEq

/-- Payload fields consumed by the two order-cancelled webhook routes. -/
structure CancelPayload where
  orderId : Nat
  noteAttributes : List Attr
  updatedAt : String
deriving DecidableEq

/-- Primary-order-cancelled webhook (src/unnamed/part_007): precheck the split
attributes, look up the request by `primary_order_id`, then set status
CANCELLED and stamp `primary_order_cancelled_at` with the payload
`updated_at` — with no guard on the current status. -/
def handlePrimaryOrderCancelled (s : Store) (p : CancelPayload) :
    Store × WebhookResponse :=
  if noSplitRequested p.noteAttributes then (s, WebhookResponse.empty)
  else
    match findRequest s p.orderId with
    | none => (s, WebhookResponse.empty)
    | some req =>
      (updateRequest s req.primaryOrderId fun r =>
        { r with
          status := Status.CANCELLED
          primaryOrderCancelledAt := some p.updatedAt },
        WebhookResponse.success)

/-- Payment-order-cancelled webhook
(app/routes/webhooks.app.events.split-fulfillment.payment-order.cancelled.jsx):
verify the payment-order marker attribute, look up the request by
`payment_order_id`, then set status CANCELLED and stamp
`payment_order_cancelled_at` — with no guard on the current status. -/
def handlePaymentOrderCancelled (s : Store) (p : CancelPayload) :
    Store × WebhookResponse :=
  if !(getAttributeValueByName p.noteAttributes "is_additional_shipping_payment_order"
      = some "true") then
    (s, WebhookResponse.empty)
  else
    match findRequestByPaymentOrder s p.orderId with
    | none => (s, WebhookResponse.empty)
    | some req =>
      (updateRequest s req.primaryOrderId fun r =>
        { r with
          status := Status.CANCELLED
          paymentOrderCancelledAt := some p.updatedAt },
        WebhookResponse.success)

/-- Payload fields consumed by the payment-captured webhook (src/unnamed/part_005). -/
structure CapturedPayload where
  orderId : Nat
  noteAttributes : List Attr
  financialStatus : String
deriving DecidableEq

/-- The still-active holds of a request, in store order:
`requestRecord.fulfillment_holds.filter(h => !h.released)`. -/
def activeHoldsOf (s : Store) (requestId : Nat) : List HoldRow :=
  (s.holds.filter fun h => h.requestId = requestId).filter fun h => !h.released

/-- Per-hold release classification (part_005 lines 95–98): a hold is cleared
when its release reported no user errors, or some error says the hold is
already gone ("not found" / "not on hold"). -/
def releaseCleared (errors : List String) : Bool :=
  errors.isEmpty ||
    errors.any fun e => strContains e "not found" || strContains e "not on hold"

/-- The `successfulHoldGids` of part_005: hold ids of cleared release
sub-operations, over (active hold, release errors) pairs. -/
def clearedGids (paired : List (HoldRow × List String)) : List String :=
  (paired.filter fun pr => releaseCleared pr.2).map fun pr => pr.1.fulfillmentHoldId

/-- The `criticalErrors` of part_005: one message per non-cleared release. -/
def criticalMsgs (paired : List (HoldRow × List String)) : List String :=
  (paired.filter fun pr => !releaseCleared pr.2).map fun pr =>
    "Hold " ++ pr.1.fulfillmentHoldId ++ ": " ++ pr.2.headD ""

/-- Steps 1–5 of the payment-captured webhook after its guards (part_005
lines 56–139): self-correct when no active holds remain, otherwise release
all active holds, mark the cleared ones released, and set COMPLETED or FAILED
with partial-release detail. -/
def releasePhase (releaseResults : List (List String)) (s : Store)
    (req : SplitRequestRow) : Store × WebhookResponse × List GCall :=
  let activeHolds := activeHoldsOf s req.primaryOrderId
  if activeHolds.isEmpty then
    (updateRequest s req.primaryOrderId fun r =>
      { r with status := Status.COMPLETED },
      WebhookResponse.empty, [])
  else
    let paired := activeHolds.zip releaseResults
    let s1 := { s with holds := s.holds.map fun h =>
      if h.fulfillmentHoldId ∈ clearedGids paired then
        { h with released := true }
      else h }
    let rcall := [GCall.releaseCall (activeHolds.map (·.fulfillmentHoldId))]
    if !(criticalMsgs paired).isEmpty then
      (updateRequest s1 req.primaryOrderId fun r =>
        { r with
          status := Status.FAILED
          errorLog := some ("Partial release failed: "
            ++ String.intercalate "; " (criticalMsgs paired)) },
        WebhookResponse.message "Logged Partial Failure", rcall)
    else
      (updateRequest s1 req.primaryOrderId fun r =>
        { r with
          status := Status.COMPLETED
          errorLog := none },
        WebhookResponse.success, rcall)

/-- Payment-captured webhook (src/unnamed/part_005): on a secured payment of a
tracked payment order, release every still-active hold of the request;
cleared holds are marked released, any critical error sets FAILED with
partial-release detail, otherwise the request completes.
`releaseResults` are the user-error message lists of the aliased release
sub-operations, aligned with the active holds. -/
def handlePaymentCaptured (releaseResults : List (List String)) (s : Store)
    (p : CapturedPayload) : Store × WebhookResponse × List GCall :=
  let isPaymentOrder :=
    getAttributeValueByName p.noteAttributes "is_additional_shipping_payment_order"
      = some "true"
  let primaryOrderAttr := getAttributeValueByName p.noteAttributes "primary_order_id"
  if !isPaymentOrder || primaryOrderAttr.isNone then (s, WebhookResponse.empty, [])
  else if !(p.financialStatus = "paid" || p.financialStatus = "authorized") then
    (s, WebhookResponse.empty, [])
  else
    match (primaryOrderAttr.bind parseIntJS).bind
        (fun z => if z < 0 then none else some z.toNat) with
    | none => (s, WebhookResponse.empty, [])
    | some poid =>
      match findRequest s poid with
      | none => (s, WebhookResponse.empty, [])
      | some req =>
        if req.status = Status.COMPLETED then (s, WebhookResponse.empty, [])
        else releasePhase releaseResults s req

/-! ## Store lemmas -/

lemma find?_map_key {l : List SplitRequestRow} (f : SplitRequestRow → SplitRequestRow)
    (hf : ∀ r, (f r).primaryOrderId = r.primaryOrderId) (key : Nat) :
    (l.map f).find? (fun r => r.primaryOrderId = key)
      = (l.find? fun r => r.primaryOrderId = key).map f := by
  induction l with
  | nil => rfl
  | cons r l ih =>
    simp only [List.map_cons]
    by_cases h : r.primaryOrderId = key
    · rw [List.find?_cons_of_pos _ (by simp [hf r, h]),
        List.find?_cons_of_pos _ (by simp [h])]
      rfl
    · rw [List.find?_cons_of_neg _ (by simp [hf r, h]),
        List.find?_cons_of_neg _ (by simp [h]), ih]

lemma findRequest_updateRequest (s : Store) (id : Nat)
    (f : SplitRequestRow → SplitRequestRow)
    (hf : ∀ r, (f r).primaryOrderId = r.primaryOrderId) (key : Nat) :
    findRequest (updateRequest s id f) key
      = (findRequest s key).map fun r => if r.primaryOrderId = id then f r else r := by
  unfold findRequest updateRequest
  exact find?_map_key _ (fun r => by by_cases h : r.primaryOrderId = id <;> simp [h, hf]) key

lemma find?_replace_of_any {l : List SplitRequestRow} {row : SplitRequestRow} {key : Nat}
    (hrow : row.primaryOrderId = key)
    (h : l.any (fun r => r.primaryOrderId = key) = true) :
    (l.map fun r => if r.primaryOrderId = key then row else r).find?
        (fun r => r.primaryOrderId = key) = some row := by
  induction l with
  | nil => simp at h
  | cons r l ih =>
    rw [List.any_cons] at h
    simp only [List.map_cons]
    by_cases hr : r.primaryOrderId = key
    · rw [if_pos hr]
      exact List.find?_cons_of_pos _ (by simp [hrow])
    · rw [if_neg hr, List.find?_cons_of_neg _ (by simp [hr])]
      apply ih
      rcases Bool.or_eq_true_iff.mp h with h2 | h2
      · exact absurd (of_decide_eq_true h2) hr
      · exact h2

lemma find?_append_new {l : List SplitRequestRow} {row : SplitRequestRow} {key : Nat}
    (hrow : row.primaryOrderId = key)
    (h : l.any (fun r => r.primaryOrderId = key) = false) :
    (l ++ [row]).find? (fun r => r.primaryOrderId = key) = some row := by
  induction l with
  | nil => exact List.find?_cons_of_pos _ (by simp [hrow])
  | cons r l ih =>
    rw [List.any_cons] at h
    rcases Bool.or_eq_false_iff.mp h with ⟨h1, h2⟩
    rw [List.cons_append, List.find?_cons_of_neg _ (by simpa using h1)]
    exact ih h2

lemma findRequest_upsertRequest (s : Store) (row : SplitRequestRow) (key : Nat)
    (hrow : row.primaryOrderId = key) :
    findRequest (upsertRequest s row) key = some row := by
  unfold findRequest upsertRequest
  rw [hrow]
  by_cases h : s.requests.any fun r => r.primaryOrderId = key
  · rw [if_pos h]
    exact find?_replace_of_any hrow h
  · rw [if_neg h]
    exact find?_append_new hrow (Bool.of_not_eq_true h)

lemma requests_upsertShop (s : Store) (shop : String) :
    (upsertShop s shop).requests = s.requests := by
  unfold upsertShop
  split <;> rfl

lemma settings_upsertShop (s : Store) (shop : String) :
    (upsertShop s shop).settings = s.settings := by
  unfold upsertShop
  split <;> rfl

lemma findRequest_refUpserts (s : Store) (shop : String) (o : OrderRow) (c : CustomerRow)
    (key : Nat) :
    findRequest (upsertCustomer (upsertOrder (upsertShop s shop) o) c) key
      = findRequest s key := by
  unfold findRequest upsertCustomer upsertOrder
  rw [requests_upsertShop]

lemma settings_refUpserts (s : Store) (shop : String) (o : OrderRow) (c : CustomerRow) :
    (upsertCustomer (upsertOrder (upsertShop s shop) o) c).settings = s.settings := by
  unfold upsertCustomer upsertOrder
  rw [settings_upsertShop]

lemma requests_refUpserts (s : Store) (shop : String) (o : OrderRow) (c : CustomerRow) :
    (upsertCustomer (upsertOrder (upsertShop s shop) o) c).requests = s.requests := by
  unfold upsertCustomer upsertOrder
  rw [requests_upsertShop]

/-- C2 (amended): for every redelivered order-created event whose stored
SplitRequest status is COMPLETED or FAILED, the handler short-circuits: it
invokes no gateway operation and leaves the stored SplitRequest rows
unchanged. (CANCELLED does not short-circuit; see the counterexample.) -/
theorem terminal_status_short_circuits (env : GatewayEnv) (s0 : Store) (shop : String)
    (p : OrderPayload) (oid : Nat) (r : SplitRequestRow)
    (h1 : p.orderId = some oid) (h2 : ∃ g, p.orderGid = some g)
    (h3 : ∃ n, p.orderName = some n) (h4 : ∃ c, p.customerId = some c)
    (h5 : p.shippingLines.isEmpty = false)
    (h6 : noSplitRequested p.noteAttributes = false)
    (h7 : ∃ lv, getShippingLineLevel p.shippingLines.head? p.countryCode = some lv)
    (h8 : ∃ cost, getParcelPriceByShippingLineTitle p.shippingLines.head? p.countryCode
        = some cost)
    (hex : findRequest s0 oid = some r)
    (hterm : r.status = Status.COMPLETED ∨ r.status = Status.FAILED) :
    (handleSplitPrimaryOrderCreated env s0 shop p).result
      = HandlerResult.skipped "already_completed_or_failed" ∧
    (handleSplitPrimaryOrderCreated env s0 shop p).calls = [] ∧
    (handleSplitPrimaryOrderCreated env s0 shop p).store.requests = s0.requests := by
  obtain ⟨g, h2⟩ := h2
  obtain ⟨n, h3⟩ := h3
  obtain ⟨c, h4⟩ := h4
  obtain ⟨lv, h7⟩ := h7
  obtain ⟨cost, h8⟩ := h8
  have hT : (r.status = Status.COMPLETED || r.status = Status.FAILED) = true := by
    rcases hterm with h | h <;> simp [h]
  have hfind : findRequest (upsertCustomer (upsertOrder (upsertShop s0 shop)
      { orderId := oid, orderName := n, shopDomain := shop })
      { customerId := c, shopDomain := shop }) oid = some r := by
    rw [findRequest_refUpserts]
    exact hex
  have hreq : (upsertCustomer (upsertOrder (upsertShop s0 shop)
      { orderId := oid, orderName := n, shopDomain := shop })
      { customerId := c, shopDomain := shop }).requests = s0.requests :=
    requests_refUpserts s0 shop _ _
  refine ⟨?_, ?_, ?_⟩ <;>
    simp only [handleSplitPrimaryOrderCreated, h1, h2, h3, h4, h5, h6, h7, h8,
      hfind, hT, Bool.false_eq_true, if_false, if_true, hreq]

/-! ## Concrete fixtures for witnesses and counterexamples -/

/-- Gateway responses of a fully successful run: one split producing FO2,
both holds granted. -/
def exEnv : GatewayEnv where
  primaryFO := some ⟨"FO1"⟩
  splitUserErrors := []
  splitResults := [("FO2", "FO1")]
  holdResults := [⟨some "H1", []⟩, ⟨some "H2", []⟩]
  holdInsertOk := true
  phase2Error := none
  paymentOrder := (900, "#P1")
  draftOrderId := "D1"

/-- An order-created payload requesting a 3-way split, CN level-1 shipping. -/
def exPayload : OrderPayload where
  orderId := some 77
  orderGid := some "gid77"
  orderName := some "#1001"
  noteAttributes := [⟨"split_choice", "yes"⟩, ⟨"split_fulfillment_count", "3"⟩]
  lineItems := [⟨4, 4000⟩]
  shippingLines := ["1档邮政 express"]
  customerId := some 5
  countryCode := some "CN"
  customerLocale := none

/-- A stored request row for order 77 in a given status. -/
def exRow (st : Status) : SplitRequestRow where
  primaryOrderId := 77
  shopDomain := "s.example"
  userChoice := true
  status := st
  calculatedParcels := some 3
  shippingLevel := 1
  additionalShippingAmount := some 50
  errorLog := none
  paymentOrderId := some 900
  draftOrderId := some "D1"
  primaryOrderCancelledAt := none
  paymentOrderCancelledAt := none

/-- Store holding the order-77 request in a given status, app enabled. -/
def exStoreWith (st : Status) : Store where
  shops := ["s.example"]
  settings := [("s.example", true)]
  orders := []
  customers := []
  requests := [exRow st]
  holds := []

/-- Store with no request rows, app enabled. -/
def exStoreEmpty : Store where
  shops := ["s.example"]
  settings := [("s.example", true)]
  orders := []
  customers := []
  requests := []
  holds := []

/-- Store for the payment-captured webhook: the order-77 request awaiting
payment with two active (unreleased) holds. -/
def exStoreHolds : Store where
  shops := ["s.example"]
  settings := [("s.example", true)]
  orders := []
  customers := []
  requests := [exRow Status.AWAITING_PAYMENT]
  holds := [⟨"H1", "FO1", 77, false⟩, ⟨"H2", "FO2", 77, false⟩]

/-- A captured-payment payload for the tracked payment order 900 of
primary order 77, financial status paid. -/
def exCapPayload : CapturedPayload where
  orderId := 900
  noteAttributes := [⟨"is_additional_shipping_payment_order", "true"⟩,
    ⟨"primary_order_id", "77"⟩]
  financialStatus := "paid"

/-- Witness for C2 at a COMPLETED request: the redelivered event is skipped
with no gateway call and the request rows unchanged. -/
theorem terminal_status_short_circuits_witness :
    findRequest (exStoreWith Status.COMPLETED) 77 = some (exRow Status.COMPLETED) ∧
    ((handleSplitPrimaryOrderCreated exEnv (exStoreWith Status.COMPLETED) "s.example"
        exPayload).result = HandlerResult.skipped "already_completed_or_failed" ∧
      (handleSplitPrimaryOrderCreated exEnv (exStoreWith Status.COMPLETED) "s.example"
        exPayload).calls = [] ∧
      (handleSplitPrimaryOrderCreated exEnv (exStoreWith Status.COMPLETED) "s.example"
        exPayload).store.requests = (exStoreWith Status.COMPLETED).requests) :=
  ⟨by decide,
    terminal_status_short_circuits exEnv (exStoreWith Status.COMPLETED) "s.example"
      exPayload 77 (exRow Status.COMPLETED) (by decide) ⟨"gid77", by decide⟩
      ⟨"#1001", by decide⟩ ⟨5, by decide⟩ (by decide) (by decide) ⟨1, by decide⟩
      ⟨25, by decide⟩ (by decide) (Or.inl (by decide))⟩

/-- Counterexample to C2 as stated: with stored status CANCELLED the handler
does not short-circuit — it performs gateway calls and rewrites the stored
row (status leaves CANCELLED). -/
theorem terminal_status_short_circuits_counterexample :
    findRequest (exStoreWith Status.CANCELLED) 77 = some (exRow Status.CANCELLED) ∧
    (handleSplitPrimaryOrderCreated exEnv (exStoreWith Status.CANCELLED) "s.example"
        exPayload).calls ≠ [] ∧
    (findRequest (handleSplitPrimaryOrderCreated exEnv (exStoreWith Status.CANCELLED)
        "s.example" exPayload).store 77).map (·.status) ≠ some Status.CANCELLED := by
  exact ⟨by decide, by decide, by decide⟩

/-- C8 (amended): the Precheck phase rejects with no state mutation exactly
when `split_choice` is missing or the parsed count is ≤ 1; an event with
`split_choice = "no"` and count > 1 is NOT rejected by Precheck (it records
the request before skipping — see the counterexample). -/
theorem precheck_no_split_skips (env : GatewayEnv) (s0 : Store) (shop : String)
    (p : OrderPayload) (h : noSplitRequested p.noteAttributes = true) :
    (handleSplitPrimaryOrderCreated env s0 shop p).store = s0 ∧
    (handleSplitPrimaryOrderCreated env s0 shop p).calls = [] ∧
    ∃ reason, (handleSplitPrimaryOrderCreated env s0 shop p).result
        = HandlerResult.skipped reason := by
  obtain ⟨oidO, gidO, nameO, attrs, items, ship, custO, ccO, locO⟩ := p
  simp only at h
  cases oidO with
  | none => exact ⟨rfl, rfl, ⟨"missing_order_fields", rfl⟩⟩
  | some oid =>
  cases gidO with
  | none => exact ⟨rfl, rfl, ⟨"missing_order_fields", rfl⟩⟩
  | some gid =>
  cases nameO with
  | none => exact ⟨rfl, rfl, ⟨"missing_order_fields", rfl⟩⟩
  | some nm =>
  cases custO with
  | none => exact ⟨rfl, rfl, ⟨"missing_customer", rfl⟩⟩
  | some cust =>
  by_cases hship : ship.isEmpty = true
  · refine ⟨?_, ?_, ⟨"no_shipping_lines", ?_⟩⟩ <;>
      simp [handleSplitPrimaryOrderCreated, hship]
  · refine ⟨?_, ?_, ⟨"no_split_required", ?_⟩⟩ <;>
      simp [handleSplitPrimaryOrderCreated, hship, h]

/-- Witness for C8: count 1 and choice set; the handler skips, touching
nothing. -/
theorem precheck_no_split_skips_witness :
    noSplitRequested [⟨"split_choice", "yes"⟩, ⟨"split_fulfillment_count", "1"⟩] = true ∧
    ((handleSplitPrimaryOrderCreated exEnv exStoreEmpty "s.example"
        { exPayload with noteAttributes :=
            [⟨"split_choice", "yes"⟩, ⟨"split_fulfillment_count", "1"⟩] }).store
      = exStoreEmpty ∧
     (handleSplitPrimaryOrderCreated exEnv exStoreEmpty "s.example"
        { exPayload with noteAttributes :=
            [⟨"split_choice", "yes"⟩, ⟨"split_fulfillment_count", "1"⟩] }).calls = [] ∧
     ∃ reason, (handleSplitPrimaryOrderCreated exEnv exStoreEmpty "s.example"
        { exPayload with noteAttributes :=
            [⟨"split_choice", "yes"⟩, ⟨"split_fulfillment_count", "1"⟩] }).result
        = HandlerResult.skipped reason) :=
  ⟨by decide,
    precheck_no_split_skips exEnv exStoreEmpty "s.example"
      { exPayload with noteAttributes :=
          [⟨"split_choice", "yes"⟩, ⟨"split_fulfillment_count", "1"⟩] } (by decide)⟩

/-- The counterexample payload for C8: the buyer answered "no" but a count of
3 is present. -/
def exPayloadNo : OrderPayload :=
  { exPayload with noteAttributes :=
      [⟨"split_choice", "no"⟩, ⟨"split_fulfillment_count", "3"⟩] }

/-- Counterexample to C8 as stated: `split_choice = "no"` with count 3 is not
rejected by the precheck — the handler creates the SplitRequest row (status
COMPLETED) before skipping, so state IS mutated. -/
theorem precheck_no_split_skips_counterexample :
    getAttributeValueByName exPayloadNo.noteAttributes "split_choice" = some "no" ∧
    (handleSplitPrimaryOrderCreated exEnv exStoreEmpty "s.example" exPayloadNo).result
      = HandlerResult.skipped "user_chose_no_split" ∧
    findRequest exStoreEmpty 77 = none ∧
    (findRequest (handleSplitPrimaryOrderCreated exEnv exStoreEmpty "s.example"
        exPayloadNo).store 77).map (·.status) = some Status.COMPLETED := by
  exact ⟨by decide, by decide, by decide, by decide⟩

/-- The Compute-phase fields of a request row: parcel count and additional
shipping amount. -/
def computeFields (r : SplitRequestRow) : Option Int × Option Int :=
  (r.calculatedParcels, r.additionalShippingAmount)

lemma computeFields_updateRequest (s : Store) (id : Nat)
    (f : SplitRequestRow → SplitRequestRow)
    (hf : ∀ r, (f r).primaryOrderId = r.primaryOrderId)
    (hcf : ∀ r, computeFields (f r) = computeFields r) (key : Nat) :
    (findRequest (updateRequest s id f) key).map computeFields
      = (findRequest s key).map computeFields := by
  rw [findRequest_updateRequest s id f hf key]
  cases findRequest s key with
  | none => rfl
  | some r =>
    simp only [Option.map_some']
    by_cases h : r.primaryOrderId = id <;> simp [h, hcf]

lemma computeFields_logDbError (s : Store) (id : Nat) (msg : String) (key : Nat) :
    (findRequest (logDbError s id msg) key).map computeFields
      = (findRequest s key).map computeFields := by
  unfold logDbError
  exact computeFields_updateRequest s id
    (fun r => { r with status := Status.FAILED, errorLog := some msg })
    (fun _ => rfl) (fun _ => rfl) key

lemma computeFields_splitHoldPhase (env : GatewayEnv) (s : Store) (rid : Nat)
    (foid : String) (key : Nat) :
    (findRequest (splitHoldPhase env s rid foid).store key).map computeFields
      = (findRequest s key).map computeFields := by
  unfold splitHoldPhase
  simp only []
  split
  · exact computeFields_logDbError s rid _ key
  · split
    · exact computeFields_logDbError s rid _ key
    · split
      · rfl
      · exact computeFields_logDbError s rid _ key

lemma computeFields_phase2AndFinalize (env : GatewayEnv) (s : Store) (rid : Nat)
    (shop : String) (key : Nat) :
    (findRequest (phase2AndFinalize env s rid shop).store key).map computeFields
      = (findRequest s key).map computeFields := by
  unfold phase2AndFinalize
  cases env.phase2Error with
  | some e => exact computeFields_logDbError s rid _ key
  | none =>
    exact computeFields_updateRequest
      { s with orders := s.orders ++
        [{ orderId := env.paymentOrder.1
           orderName := env.paymentOrder.2
           shopDomain := shop }] }
      rid
      (fun r =>
        { r with
          status := Status.AWAITING_PAYMENT
          paymentOrderId := some env.paymentOrder.1
          draftOrderId := some env.draftOrderId
          errorLog := none })
      (fun _ => rfl) (fun _ => rfl) key

lemma computeFields_afterInit (env : GatewayEnv) (s4 : Store) (oid : Nat)
    (shop : String) (b1 b2 : Bool) (key : Nat) :
    (findRequest (afterInit env s4 oid shop b1 b2).store key).map computeFields
      = (findRequest s4 key).map computeFields := by
  unfold afterInit
  split
  · rfl
  · split
    · rfl
    · cases env.primaryFO with
      | none => exact computeFields_logDbError s4 oid _ key
      | some fo =>
        simp only []
        cases hres : (splitHoldPhase env s4 oid fo.id).result
        all_goals simp only []
        · rw [computeFields_splitHoldPhase]
        · rw [computeFields_phase2AndFinalize, computeFields_splitHoldPhase]
        · rw [computeFields_splitHoldPhase]

/-- C7 (amended): in the Compute phase, the parcel count persisted on the
SplitRequest (`calculated_parcels`) is the REQUESTED `split_fulfillment_count`
parsed from the note attributes — not the ParcelPacker output — and the
persisted `additional_shipping_amount` equals `max 0 (count − 1)` times
`costPerParcel` from the shipping-rate lookup; the fields survive every later
phase of the run. -/
theorem compute_fields_persisted (env : GatewayEnv) (s0 : Store) (shop : String)
    (p : OrderPayload) (oid : Nat) (cost : Int)
    (h1 : p.orderId = some oid) (h2 : ∃ g, p.orderGid = some g)
    (h3 : ∃ n, p.orderName = some n) (h4 : ∃ c, p.customerId = some c)
    (h5 : p.shippingLines.isEmpty = false)
    (h6 : noSplitRequested p.noteAttributes = false)
    (h7 : ∃ lv, getShippingLineLevel p.shippingLines.head? p.countryCode = some lv)
    (h8 : getParcelPriceByShippingLineTitle p.shippingLines.head? p.countryCode = some cost)
    (hnt : findRequest s0 oid = none ∨ ∃ r, findRequest s0 oid = some r ∧
        (r.status = Status.COMPLETED || r.status = Status.FAILED) = false) :
    (findRequest (handleSplitPrimaryOrderCreated env s0 shop p).store oid).map computeFields
      = some (parsedFulfillmentCount p.noteAttributes,
          (parsedFulfillmentCount p.noteAttributes).map fun c => (max 0 (c - 1)) * cost) := by
  obtain ⟨g, h2⟩ := h2
  obtain ⟨n, h3⟩ := h3
  obtain ⟨c, h4⟩ := h4
  obtain ⟨lv, h7⟩ := h7
  have hfind3 : findRequest (upsertCustomer (upsertOrder (upsertShop s0 shop)
      { orderId := oid, orderName := n, shopDomain := shop })
      { customerId := c, shopDomain := shop }) oid = findRequest s0 oid :=
    findRequest_refUpserts s0 shop _ _ oid
  simp only [handleSplitPrimaryOrderCreated, h1, h2, h3, h4, h5, h6, h7, h8, hfind3,
    Bool.false_eq_true, if_false, ite_false]
  rcases hnt with hnone | ⟨r, hr, hrF⟩
  · rw [hnone]
    simp only [Bool.false_eq_true, if_false, ite_false]
    rw [computeFields_afterInit]
    rw [findRequest_upsertRequest _ _ oid rfl]
    rfl
  · rw [hr]
    simp only [hrF, Bool.false_eq_true, if_false, ite_false]
    have hkey : r.primaryOrderId = oid := by
      have hr2 : s0.requests.find? (fun rr => rr.primaryOrderId = oid) = some r := hr
      have hb := List.find?_some hr2
      simpa using hb
    rw [computeFields_afterInit, findRequest_upsertRequest]
    · rfl
    · exact hkey

/-- Witness for C7: requested count 3, CN level-1 cost 25; the stored row
carries parcels 3 and amount (3−1)·25 = 50. -/
theorem compute_fields_persisted_witness :
    findRequest exStoreEmpty 77 = none ∧
    (findRequest (handleSplitPrimaryOrderCreated exEnv exStoreEmpty "s.example"
        exPayload).store 77).map computeFields
      = some (parsedFulfillmentCount exPayload.noteAttributes,
          (parsedFulfillmentCount exPayload.noteAttributes).map fun c =>
            (max 0 (c - 1)) * 25) :=
  ⟨by decide,
    compute_fields_persisted exEnv exStoreEmpty "s.example" exPayload 77 25
      (by decide) ⟨"gid77", by decide⟩ ⟨"#1001", by decide⟩ ⟨5, by decide⟩
      (by decide) (by decide) ⟨1, by decide⟩ (by decide) (Or.inl (by decide))⟩

/-- Counterexample to C7 as stated: the ParcelPacker yields 1 parcel for this
order, yet the persisted `calculated_parcels` is the requested 3 and the
persisted amount is 50 rather than (1 − 1) · 25 = 0. -/
theorem compute_fields_persisted_counterexample :
    (calculateFulfillmentSplits exPayload.lineItems).length = 1 ∧
    (findRequest (handleSplitPrimaryOrderCreated exEnv exStoreEmpty "s.example"
        exPayload).store 77).map (fun r => r.calculatedParcels) = some (some 3) ∧
    (findRequest (handleSplitPrimaryOrderCreated exEnv exStoreEmpty "s.example"
        exPayload).store 77).map (fun r => r.additionalShippingAmount)
      = some (some 50) ∧
    ¬ ((3 : Int) = 1) ∧ ¬ ((50 : Int) = ((1 : Int) - 1) * 25) := by
  exact ⟨by decide, by decide, by decide, by decide, by decide⟩

lemma findRequest_logDbError_of_found (s : Store) (id : Nat) (msg : String)
    (r : SplitRequestRow) (h : findRequest s id = some r)
    (hkey : r.primaryOrderId = id) :
    findRequest (logDbError s id msg) id
      = some { r with status := Status.FAILED, errorLog := some msg } := by
  unfold logDbError
  rw [findRequest_updateRequest s id
    (fun r => { r with status := Status.FAILED, errorLog := some msg })
    (fun _ => rfl) id, h]
  simp [hkey]

lemma afterInit_holdError (env : GatewayEnv) (s4 : Store) (oid : Nat) (shop : String)
    (fo : FulfillmentOrder) (u : SplitRequestRow)
    (henv : env.primaryFO = some fo)
    (hsplit : env.splitUserErrors = [])
    (herr : (holdOutcome env.holdResults).2 ≠ [])
    (hfound : findRequest s4 oid = some u) (hkey : u.primaryOrderId = oid) :
    (∀ ids, GCall.releaseCall ids ∈ (afterInit env s4 oid shop true true).calls →
        ids = (holdOutcome env.holdResults).1) ∧
    ((holdOutcome env.holdResults).1 ≠ [] →
      GCall.releaseCall (holdOutcome env.holdResults).1
        ∈ (afterInit env s4 oid shop true true).calls) ∧
    (∃ rr, findRequest (afterInit env s4 oid shop true true).store oid = some rr ∧
        rr.status = Status.FAILED ∧
        rr.errorLog = some "Phase 1 Error: Hold Phase Failed") ∧
    (afterInit env s4 oid shop true true).result
      = HandlerResult.raised "Hold Phase Failed" := by
  have hhe : (holdOutcome env.holdResults).2.isEmpty = false := by
    rcases hx : (holdOutcome env.holdResults).2 with _ | ⟨a, l⟩
    · exact absurd hx herr
    · rfl
  have hsp : env.splitUserErrors.isEmpty = true := by rw [hsplit]; rfl
  unfold afterInit splitHoldPhase
  rw [henv]
  simp only [hsp, hhe, Bool.not_true, Bool.not_false, if_false, if_true, ite_true,
    ite_false, Bool.false_eq_true, Bool.true_eq_false]
  refine ⟨?_, ?_, ?_, by trivial⟩
  · intro ids hmem
    rcases List.mem_cons.mp hmem with h | hmem2
    · simp at h
    · rcases List.mem_append.mp hmem2 with h | h
      · rcases List.mem_cons.mp h with h1 | h1
        · simp at h1
        · rcases List.mem_cons.mp h1 with h2 | h2
          · simp at h2
          · simp at h2
      · by_cases hsucc : (holdOutcome env.holdResults).1.isEmpty = true
        · rw [if_pos hsucc] at h
          simp at h
        · rw [if_neg hsucc] at h
          have h2 := List.mem_singleton.mp h
          injection h2
  · intro hne
    have hsucc : ¬ ((holdOutcome env.holdResults).1.isEmpty = true) := by
      intro hx
      exact hne (List.isEmpty_iff.mp hx)
    rw [if_neg hsucc]
    refine List.mem_cons_of_mem _ (List.mem_append_right _ ?_)
    exact List.mem_singleton.mpr rfl
  · exact ⟨_, findRequest_logDbError_of_found _ oid _ u hfound hkey, rfl, rfl⟩

/-- C1: for every execution of the split handler in which the batched hold
operation reports at least one sub-operation error, the handler releases
exactly those holds in the same batch that succeeded (and no others), records
the error with status FAILED on the SplitRequest, and re-raises the exception
to the queue. -/
theorem hold_error_rollback (env : GatewayEnv) (s0 : Store) (shop : String)
    (p : OrderPayload) (oid : Nat) (fo : FulfillmentOrder)
    (h1 : p.orderId = some oid) (h2 : ∃ g, p.orderGid = some g)
    (h3 : ∃ n, p.orderName = some n) (h4 : ∃ c, p.customerId = some c)
    (h5 : p.shippingLines.isEmpty = false)
    (h6 : noSplitRequested p.noteAttributes = false)
    (h7 : ∃ lv, getShippingLineLevel p.shippingLines.head? p.countryCode = some lv)
    (h8 : ∃ cost, getParcelPriceByShippingLineTitle p.shippingLines.head? p.countryCode
        = some cost)
    (hnt : findRequest s0 oid = none ∨ ∃ r, findRequest s0 oid = some r ∧
        (r.status = Status.COMPLETED || r.status = Status.FAILED) = false)
    (hchoice : getAttributeValueByName p.noteAttributes "split_choice" = some "yes")
    (hen : ((s0.settings.find? fun kv => kv.1 = shop).map (·.2)).getD false = true)
    (henv : env.primaryFO = some fo)
    (hsplit : env.splitUserErrors = [])
    (herr : (holdOutcome env.holdResults).2 ≠ []) :
    (∀ ids, GCall.releaseCall ids ∈ (handleSplitPrimaryOrderCreated env s0 shop p).calls →
        ids = (holdOutcome env.holdResults).1) ∧
    ((holdOutcome env.holdResults).1 ≠ [] →
      GCall.releaseCall (holdOutcome env.holdResults).1
        ∈ (handleSplitPrimaryOrderCreated env s0 shop p).calls) ∧
    (∃ rr, findRequest (handleSplitPrimaryOrderCreated env s0 shop p).store oid = some rr ∧
        rr.status = Status.FAILED ∧
        rr.errorLog = some "Phase 1 Error: Hold Phase Failed") ∧
    (handleSplitPrimaryOrderCreated env s0 shop p).result
      = HandlerResult.raised "Hold Phase Failed" := by
  obtain ⟨g, h2⟩ := h2
  obtain ⟨n, h3⟩ := h3
  obtain ⟨c, h4⟩ := h4
  obtain ⟨lv, h7⟩ := h7
  obtain ⟨cost, h8⟩ := h8
  have hfind3 : findRequest (upsertCustomer (upsertOrder (upsertShop s0 shop)
      { orderId := oid, orderName := n, shopDomain := shop })
      { customerId := c, shopDomain := shop }) oid = findRequest s0 oid :=
    findRequest_refUpserts s0 shop _ _ oid
  have hset3 : (upsertCustomer (upsertOrder (upsertShop s0 shop)
      { orderId := oid, orderName := n, shopDomain := shop })
      { customerId := c, shopDomain := shop }).settings = s0.settings :=
    settings_refUpserts s0 shop _ _
  have hb1 : (decide (getAttributeValueByName p.noteAttributes "split_choice"
      = some "yes")) = true := by
    rw [hchoice]
    rfl
  simp only [handleSplitPrimaryOrderCreated, h1, h2, h3, h4, h5, h6, h7, h8, hfind3, hset3,
    hb1, hen, Bool.false_eq_true, if_false, ite_false]
  rcases hnt with hnone | ⟨r, hr, hrF⟩
  · rw [hnone]
    simp only [Bool.false_eq_true, if_false, ite_false]
    exact afterInit_holdError env _ oid shop fo _ henv hsplit herr
      (findRequest_upsertRequest _ _ oid rfl) rfl
  · rw [hr]
    simp only [hrF, Bool.false_eq_true, if_false, ite_false]
    have hkey : r.primaryOrderId = oid := by
      have hr2 : s0.requests.find? (fun rr => rr.primaryOrderId = oid) = some r := hr
      have hb := List.find?_some hr2
      simpa using hb
    exact afterInit_holdError env _ oid shop fo _ henv hsplit herr
      (findRequest_upsertRequest _ _ oid hkey) hkey

/-- Gateway responses where hold H1 succeeds and the second hold fails. -/
def exEnvHoldFail : GatewayEnv :=
  { exEnv with holdResults := [⟨some "H1", []⟩, ⟨none, ["err3"]⟩] }

/-- Witness for C1: one failed hold in the batch; exactly H1 is released, the
row is FAILED with the phase-1 error, and the run re-raises. -/
theorem hold_error_rollback_witness :
    (holdOutcome exEnvHoldFail.holdResults).2 ≠ [] ∧
    ((∀ ids, GCall.releaseCall ids ∈ (handleSplitPrimaryOrderCreated exEnvHoldFail
          exStoreEmpty "s.example" exPayload).calls →
        ids = (holdOutcome exEnvHoldFail.holdResults).1) ∧
    ((holdOutcome exEnvHoldFail.holdResults).1 ≠ [] →
      GCall.releaseCall (holdOutcome exEnvHoldFail.holdResults).1
        ∈ (handleSplitPrimaryOrderCreated exEnvHoldFail exStoreEmpty "s.example"
            exPayload).calls) ∧
    (∃ rr, findRequest (handleSplitPrimaryOrderCreated exEnvHoldFail exStoreEmpty
        "s.example" exPayload).store 77 = some rr ∧
        rr.status = Status.FAILED ∧
        rr.errorLog = some "Phase 1 Error: Hold Phase Failed") ∧
    (handleSplitPrimaryOrderCreated exEnvHoldFail exStoreEmpty "s.example"
        exPayload).result = HandlerResult.raised "Hold Phase Failed") :=
  ⟨by decide,
    hold_error_rollback exEnvHoldFail exStoreEmpty "s.example" exPayload 77 ⟨"FO1"⟩
      (by decide) ⟨"gid77", by decide⟩ ⟨"#1001", by decide⟩ ⟨5, by decide⟩ (by decide)
      (by decide) ⟨1, by decide⟩ ⟨25, by decide⟩ (Or.inl (by decide)) (by decide)
      (by decide) (by decide) (by decide) (by decide)⟩

/-- C6 (amended): the external cancellation handlers set status CANCELLED and
stamp the corresponding cancellation timestamp for ANY current status of a
matching SplitRequest — there is no PENDING/AWAITING_PAYMENT guard, so
terminal records are not immutable against the cancellation webhooks. -/
theorem cancellation_sets_cancelled (s : Store) (p : CancelPayload) :
    (∀ r, noSplitRequested p.noteAttributes = false →
      findRequest s p.orderId = some r →
      ∃ r2, findRequest (handlePrimaryOrderCancelled s p).1 p.orderId = some r2 ∧
        r2.status = Status.CANCELLED ∧ r2.primaryOrderCancelledAt = some p.updatedAt) ∧
    (∀ r, getAttributeValueByName p.noteAttributes "is_additional_shipping_payment_order"
        = some "true" →
      findRequestByPaymentOrder s p.orderId = some r →
      ∃ r2, findRequest (handlePaymentOrderCancelled s p).1 r.primaryOrderId = some r2 ∧
        r2.status = Status.CANCELLED ∧ r2.paymentOrderCancelledAt = some p.updatedAt) := by
  constructor
  · intro r hguard hfound
    have hkey : r.primaryOrderId = p.orderId := by
      have h2 : s.requests.find? (fun rr => rr.primaryOrderId = p.orderId) = some r := hfound
      have hb := List.find?_some h2
      simpa using hb
    refine ⟨{ r with
        status := Status.CANCELLED
        primaryOrderCancelledAt := some p.updatedAt }, ?_, rfl, rfl⟩
    unfold handlePrimaryOrderCancelled
    simp only [hguard, Bool.false_eq_true, if_false, ite_false, hfound]
    rw [hkey, findRequest_updateRequest s p.orderId
      (fun rr => { rr with
        status := Status.CANCELLED
        primaryOrderCancelledAt := some p.updatedAt })
      (fun _ => rfl) p.orderId, hfound]
    simp [hkey]
  · intro r hguard hfound
    have hg2 : (decide (getAttributeValueByName p.noteAttributes
        "is_additional_shipping_payment_order" = some "true")) = true := by
      rw [hguard]
      rfl
    have hmem : r ∈ s.requests := by
      have h2 : s.requests.find? (fun rr => rr.paymentOrderId = some p.orderId) = some r :=
        hfound
      exact List.mem_of_find?_eq_some h2
    have hsome : ∃ rr, findRequest s r.primaryOrderId = some rr := by
      have h3 : (s.requests.find? fun rr => rr.primaryOrderId = r.primaryOrderId).isSome := by
        rw [List.find?_isSome]
        exact ⟨r, hmem, by simp⟩
      obtain ⟨rr, hrr⟩ := Option.isSome_iff_exists.mp h3
      exact ⟨rr, hrr⟩
    obtain ⟨rr, hrr⟩ := hsome
    have hkey2 : rr.primaryOrderId = r.primaryOrderId := by
      have h2 : s.requests.find? (fun x => x.primaryOrderId = r.primaryOrderId) = some rr := hrr
      have hb := List.find?_some h2
      simpa using hb
    refine ⟨{ rr with
        status := Status.CANCELLED
        paymentOrderCancelledAt := some p.updatedAt }, ?_, rfl, rfl⟩
    unfold handlePaymentOrderCancelled
    simp only [hg2, Bool.not_true, Bool.false_eq_true, if_false, ite_false, hfound]
    rw [findRequest_updateRequest s r.primaryOrderId
      (fun x => { x with
        status := Status.CANCELLED
        paymentOrderCancelledAt := some p.updatedAt })
      (fun _ => rfl) r.primaryOrderId, hrr]
    simp [hkey2]

/-- Witness for C6 (amended): an AWAITING_PAYMENT request is cancelled by the
primary-order-cancelled webhook with its timestamp stamped. -/
theorem cancellation_sets_cancelled_witness :
    ∃ r2, findRequest (handlePrimaryOrderCancelled (exStoreWith Status.AWAITING_PAYMENT)
        ⟨77, [⟨"split_choice", "yes"⟩, ⟨"split_fulfillment_count", "3"⟩], "t9"⟩).1 77
      = some r2 ∧
      r2.status = Status.CANCELLED ∧ r2.primaryOrderCancelledAt = some "t9" :=
  (cancellation_sets_cancelled (exStoreWith Status.AWAITING_PAYMENT)
      ⟨77, [⟨"split_choice", "yes"⟩, ⟨"split_fulfillment_count", "3"⟩], "t9"⟩).1
    (exRow Status.AWAITING_PAYMENT) (by decide) (by decide)

/-- Counterexample to C6 as stated: a COMPLETED (terminal) request is mutated
to CANCELLED by the primary-order-cancelled webhook — the handlers have no
PENDING/AWAITING_PAYMENT guard. -/
theorem cancellation_sets_cancelled_counterexample :
    (findRequest (exStoreWith Status.COMPLETED) 77).map (·.status)
      = some Status.COMPLETED ∧
    (findRequest (handlePrimaryOrderCancelled (exStoreWith Status.COMPLETED)
        ⟨77, [⟨"split_choice", "yes"⟩, ⟨"split_fulfillment_count", "3"⟩], "t9"⟩).1 77).map
        (·.status) = some Status.CANCELLED := by
  exact ⟨by decide, by decide⟩

lemma findRequest_setHolds (s : Store) (hs : List HoldRow) (key : Nat) :
    findRequest { s with holds := hs } key = findRequest s key := rfl

lemma holds_updateRequest (s : Store) (id : Nat) (f : SplitRequestRow → SplitRequestRow) :
    (updateRequest s id f).holds = s.holds := rfl

lemma holds_marked_released (holds : List HoldRow) (gids : List String) :
    ∀ h ∈ holds.map (fun h =>
        if h.fulfillmentHoldId ∈ gids then { h with released := true } else h),
      h.fulfillmentHoldId ∈ gids → h.released = true := by
  intro h hmem hgid
  obtain ⟨h0, hh0, rfl⟩ := List.mem_map.mp hmem
  by_cases hg : h0.fulfillmentHoldId ∈ gids
  · simp [hg]
  · rw [if_neg hg] at hgid ⊢
    exact absurd hgid hg

/-! ## Release-phase lemmas (part_005) -/

lemma releasePhase_store_selfcorrect (releaseResults : List (List String))
    (s : Store) (req : SplitRequestRow)
    (hact : (activeHoldsOf s req.primaryOrderId).isEmpty = true) :
    (releasePhase releaseResults s req).1
      = updateRequest s req.primaryOrderId fun r =>
          { r with status := Status.COMPLETED } := by
  simp only [releasePhase]
  rw [if_pos hact]

lemma releasePhase_store_of_cleared (releaseResults : List (List String))
    (s : Store) (req : SplitRequestRow)
    (hact : (activeHoldsOf s req.primaryOrderId).isEmpty = false)
    (hcm : (criticalMsgs ((activeHoldsOf s req.primaryOrderId).zip
      releaseResults)).isEmpty = true) :
    (releasePhase releaseResults s req).1
      = updateRequest
          { s with holds := s.holds.map fun h =>
              if h.fulfillmentHoldId ∈ clearedGids ((activeHoldsOf s req.primaryOrderId).zip releaseResults) then
                { h with released := true }
              else h }
          req.primaryOrderId fun r =>
          { r with
            status := Status.COMPLETED
            errorLog := none } := by
  simp only [releasePhase]
  rw [if_neg (by simp [hact]), if_neg (by simp [hcm])]

lemma releasePhase_store_of_critical (releaseResults : List (List String))
    (s : Store) (req : SplitRequestRow)
    (hact : (activeHoldsOf s req.primaryOrderId).isEmpty = false)
    (hcm : (criticalMsgs ((activeHoldsOf s req.primaryOrderId).zip
      releaseResults)).isEmpty = false) :
    (releasePhase releaseResults s req).1
      = updateRequest
          { s with holds := s.holds.map fun h =>
              if h.fulfillmentHoldId ∈ clearedGids ((activeHoldsOf s req.primaryOrderId).zip releaseResults) then
                { h with released := true }
              else h }
          req.primaryOrderId fun r =>
          { r with
            status := Status.FAILED
            errorLog := some ("Partial release failed: "
              ++ String.intercalate "; " (criticalMsgs
                ((activeHoldsOf s req.primaryOrderId).zip releaseResults))) } := by
  simp only [releasePhase]
  rw [if_neg (by simp [hact]), if_pos (by simp [hcm])]

lemma releasePhase_releaseCall (releaseResults : List (List String))
    (s : Store) (req : SplitRequestRow)
    (hact : (activeHoldsOf s req.primaryOrderId).isEmpty = false) :
    GCall.releaseCall ((activeHoldsOf s req.primaryOrderId).map (·.fulfillmentHoldId))
      ∈ (releasePhase releaseResults s req).2.2 := by
  simp only [releasePhase]
  rw [if_neg (by simp [hact])]
  cases hcm : (criticalMsgs ((activeHoldsOf s req.primaryOrderId).zip
      releaseResults)).isEmpty <;> simp

lemma releasePhase_completed (releaseResults : List (List String))
    (s : Store) (req : SplitRequestRow)
    (hfound : findRequest s req.primaryOrderId = some req)
    (hcm : (criticalMsgs ((activeHoldsOf s req.primaryOrderId).zip
      releaseResults)).isEmpty = true) :
    (findRequest (releasePhase releaseResults s req).1 req.primaryOrderId).map (·.status)
      = some Status.COMPLETED := by
  cases hact : (activeHoldsOf s req.primaryOrderId).isEmpty with
  | true =>
    rw [releasePhase_store_selfcorrect releaseResults s req hact,
      findRequest_updateRequest s req.primaryOrderId
        (fun r => { r with status := Status.COMPLETED })
        (fun _ => rfl) req.primaryOrderId, hfound]
    simp
  | false =>
    rw [releasePhase_store_of_cleared releaseResults s req hact hcm,
      findRequest_updateRequest _ req.primaryOrderId
        (fun r => { r with status := Status.COMPLETED, errorLog := none })
        (fun _ => rfl) req.primaryOrderId,
      findRequest_setHolds, hfound]
    simp

lemma releasePhase_failed (releaseResults : List (List String))
    (s : Store) (req : SplitRequestRow)
    (hfound : findRequest s req.primaryOrderId = some req)
    (hcm : (criticalMsgs ((activeHoldsOf s req.primaryOrderId).zip
      releaseResults)).isEmpty = false) :
    findRequest (releasePhase releaseResults s req).1 req.primaryOrderId
      = some { req with
          status := Status.FAILED
          errorLog := some ("Partial release failed: "
            ++ String.intercalate "; " (criticalMsgs
              ((activeHoldsOf s req.primaryOrderId).zip releaseResults))) } := by
  have hact : (activeHoldsOf s req.primaryOrderId).isEmpty = false := by
    cases hA : activeHoldsOf s req.primaryOrderId with
    | nil => rw [hA] at hcm; simp [criticalMsgs] at hcm
    | cons a l => rfl
  rw [releasePhase_store_of_critical releaseResults s req hact hcm,
    findRequest_updateRequest _ req.primaryOrderId
      (fun r => { r with
        status := Status.FAILED
        errorLog := some ("Partial release failed: "
          ++ String.intercalate "; " (criticalMsgs
            ((activeHoldsOf s req.primaryOrderId).zip releaseResults))) })
      (fun _ => rfl) req.primaryOrderId,
    findRequest_setHolds, hfound]
  simp

lemma releasePhase_marks (releaseResults : List (List String))
    (s : Store) (req : SplitRequestRow) :
    ∀ h ∈ (releasePhase releaseResults s req).1.holds,
      h.fulfillmentHoldId
          ∈ clearedGids ((activeHoldsOf s req.primaryOrderId).zip releaseResults) →
      h.released = true := by
  cases hact : (activeHoldsOf s req.primaryOrderId).isEmpty with
  | true =>
    intro h hmem hgid
    have hnil : activeHoldsOf s req.primaryOrderId = [] := List.isEmpty_iff.mp hact
    rw [hnil] at hgid
    simp [clearedGids] at hgid
  | false =>
    cases hcm : (criticalMsgs ((activeHoldsOf s req.primaryOrderId).zip
        releaseResults)).isEmpty with
    | true =>
      rw [releasePhase_store_of_cleared releaseResults s req hact hcm,
        holds_updateRequest]
      exact holds_marked_released s.holds _
    | false =>
      rw [releasePhase_store_of_critical releaseResults s req hact hcm,
        holds_updateRequest]
      exact holds_marked_released s.holds _

/-- C9: for a secured payment-captured event whose tracked SplitRequest exists
and is not COMPLETED, the handler issues one release call covering every
still-active hold of the request; if every release sub-operation clears, the
request is set COMPLETED, and if some sub-operation reports a critical error
the request is set FAILED with partial-release detail while the holds that
did clear are still marked released. -/
theorem payment_captured_release (releaseResults : List (List String)) (s : Store)
    (p : CapturedPayload) (pidStr : String) (poid : Nat) (req : SplitRequestRow)
    (hpo : getAttributeValueByName p.noteAttributes
      "is_additional_shipping_payment_order" = some "true")
    (hpid : getAttributeValueByName p.noteAttributes "primary_order_id" = some pidStr)
    (hparse : (parseIntJS pidStr).bind
      (fun z => if z < 0 then none else some z.toNat) = some poid)
    (hsec : p.financialStatus = "paid" ∨ p.financialStatus = "authorized")
    (hfound : findRequest s poid = some req)
    (hnc : ¬ req.status = Status.COMPLETED) :
    ((activeHoldsOf s poid).isEmpty = false →
      GCall.releaseCall ((activeHoldsOf s poid).map (·.fulfillmentHoldId))
        ∈ (handlePaymentCaptured releaseResults s p).2.2) ∧
    ((criticalMsgs ((activeHoldsOf s poid).zip releaseResults)).isEmpty = true →
      (findRequest (handlePaymentCaptured releaseResults s p).1 poid).map (·.status)
        = some Status.COMPLETED) ∧
    ((criticalMsgs ((activeHoldsOf s poid).zip releaseResults)).isEmpty = false →
      findRequest (handlePaymentCaptured releaseResults s p).1 poid
        = some { req with
            status := Status.FAILED
            errorLog := some ("Partial release failed: "
              ++ String.intercalate "; "
                (criticalMsgs ((activeHoldsOf s poid).zip releaseResults))) }) ∧
    (∀ h ∈ (handlePaymentCaptured releaseResults s p).1.holds,
      h.fulfillmentHoldId ∈ clearedGids ((activeHoldsOf s poid).zip releaseResults) →
      h.released = true) := by
  have hkeyp : req.primaryOrderId = poid := by
    have h2 : s.requests.find? (fun r => r.primaryOrderId = poid) = some req := hfound
    simpa using List.find?_some h2
  have hfound2 : findRequest s req.primaryOrderId = some req := by
    rw [hkeyp]
    exact hfound
  have hred : handlePaymentCaptured releaseResults s p
      = releasePhase releaseResults s req := by
    simp only [handlePaymentCaptured]
    rw [hpo, hpid]
    rw [if_neg (by simp)]
    rw [if_neg (by rcases hsec with h | h <;> simp [h])]
    simp only [Option.some_bind, hparse, hfound]
    rw [if_neg hnc]
  rw [hred, ← hkeyp]
  exact ⟨fun hact => releasePhase_releaseCall releaseResults s req hact,
    fun hcm => releasePhase_completed releaseResults s req hfound2 hcm,
    fun hcm => releasePhase_failed releaseResults s req hfound2 hcm,
    releasePhase_marks releaseResults s req⟩

/-- Witness for C9: both active holds of the awaiting-payment request for
order 77 release without errors; the handler issues the release call for
["H1", "H2"] and completes the request. -/
theorem payment_captured_release_witness :
    ((activeHoldsOf exStoreHolds 77).isEmpty = false →
      GCall.releaseCall ((activeHoldsOf exStoreHolds 77).map (·.fulfillmentHoldId))
        ∈ (handlePaymentCaptured [[], []] exStoreHolds exCapPayload).2.2) ∧
    ((criticalMsgs ((activeHoldsOf exStoreHolds 77).zip [[], []])).isEmpty = true →
      (findRequest (handlePaymentCaptured [[], []] exStoreHolds exCapPayload).1 77).map
          (·.status)
        = some Status.COMPLETED) ∧
    ((criticalMsgs ((activeHoldsOf exStoreHolds 77).zip [[], []])).isEmpty = false →
      findRequest (handlePaymentCaptured [[], []] exStoreHolds exCapPayload).1 77
        = some { exRow Status.AWAITING_PAYMENT with
            status := Status.FAILED
            errorLog := some ("Partial release failed: "
              ++ String.intercalate "; "
                (criticalMsgs ((activeHoldsOf exStoreHolds 77).zip [[], []]))) }) ∧
    (∀ h ∈ (handlePaymentCaptured [[], []] exStoreHolds exCapPayload).1.holds,
      h.fulfillmentHoldId ∈ clearedGids ((activeHoldsOf exStoreHolds 77).zip [[], []]) →
      h.released = true) :=
  payment_captured_release [[], []] exStoreHolds exCapPayload "77" 77
    (exRow Status.AWAITING_PAYMENT) (by decide) (by decide) (by decide)
    (Or.inl (by decide)) (by decide) (by decide)

/-- C10: a release sub-operation whose user errors all say the hold is already
gone ("not found" / "not on hold") is treated as cleared: its error list counts
as a successful release, its hold id is among the cleared gids (so the store
marks that hold released), and when every sub-operation of the request clears
this way there are no critical errors and the request is set COMPLETED, not
FAILED. -/
theorem not_found_treated_as_cleared (releaseResults : List (List String)) (s : Store)
    (req : SplitRequestRow) (h0 : HoldRow) (errs : List String)
    (hfound : findRequest s req.primaryOrderId = some req)
    (hne : errs ≠ [])
    (hall : ∀ e ∈ errs,
      strContains e "not found" = true ∨ strContains e "not on hold" = true) :
    releaseCleared errs = true ∧
    ((h0, errs) ∈ (activeHoldsOf s req.primaryOrderId).zip releaseResults →
      h0.fulfillmentHoldId
        ∈ clearedGids ((activeHoldsOf s req.primaryOrderId).zip releaseResults)) ∧
    (∀ h ∈ (releasePhase releaseResults s req).1.holds,
      h.fulfillmentHoldId
          ∈ clearedGids ((activeHoldsOf s req.primaryOrderId).zip releaseResults) →
      h.released = true) ∧
    ((∀ pr ∈ (activeHoldsOf s req.primaryOrderId).zip releaseResults,
        releaseCleared pr.2 = true) →
      criticalMsgs ((activeHoldsOf s req.primaryOrderId).zip releaseResults) = [] ∧
      (findRequest (releasePhase releaseResults s req).1 req.primaryOrderId).map
          (·.status)
        = some Status.COMPLETED) := by
  have hcl : releaseCleared errs = true := by
    obtain ⟨e, he⟩ := List.exists_mem_of_ne_nil errs hne
    unfold releaseCleared
    have hany : (errs.any fun e =>
        strContains e "not found" || strContains e "not on hold") = true :=
      List.any_eq_true.mpr ⟨e, he, by rcases hall e he with h | h <;> simp [h]⟩
    rw [hany]
    cases errs.isEmpty <;> rfl
  refine ⟨hcl, ?_, releasePhase_marks releaseResults s req, ?_⟩
  · intro hmem
    unfold clearedGids
    exact List.mem_map.mpr ⟨(h0, errs), List.mem_filter.mpr ⟨hmem, hcl⟩, rfl⟩
  · intro hallc
    have hnil : criticalMsgs ((activeHoldsOf s req.primaryOrderId).zip releaseResults)
        = [] := by
      have hf : ∀ pr ∈ (activeHoldsOf s req.primaryOrderId).zip releaseResults,
          ¬((!releaseCleared pr.2) = true) := by
        intro pr hpr
        simp [hallc pr hpr]
      unfold criticalMsgs
      rw [List.filter_eq_nil_iff.mpr hf]
      rfl
    exact ⟨hnil, releasePhase_completed releaseResults s req hfound (by rw [hnil]; rfl)⟩

/-- Witness for C10: a release reporting only "hold not found" for hold H1 is
cleared — H1 is among the cleared gids, the store marks it released, and the
request completes. -/
theorem not_found_treated_as_cleared_witness :
    releaseCleared ["hold not found"] = true ∧
    (((⟨"H1", "FO1", 77, false⟩ : HoldRow), ["hold not found"])
        ∈ (activeHoldsOf exStoreHolds 77).zip [["hold not found"], []] →
      (⟨"H1", "FO1", 77, false⟩ : HoldRow).fulfillmentHoldId
        ∈ clearedGids ((activeHoldsOf exStoreHolds 77).zip [["hold not found"], []])) ∧
    (∀ h ∈ (releasePhase [["hold not found"], []] exStoreHolds
        (exRow Status.AWAITING_PAYMENT)).1.holds,
      h.fulfillmentHoldId
          ∈ clearedGids ((activeHoldsOf exStoreHolds 77).zip [["hold not found"], []]) →
      h.released = true) ∧
    ((∀ pr ∈ (activeHoldsOf exStoreHolds 77).zip [["hold not found"], []],
        releaseCleared pr.2 = true) →
      criticalMsgs ((activeHoldsOf exStoreHolds 77).zip [["hold not found"], []]) = [] ∧
      (findRequest (releasePhase [["hold not found"], []] exStoreHolds
          (exRow Status.AWAITING_PAYMENT)).1 77).map (·.status)
        = some Status.COMPLETED) :=
  not_found_treated_as_cleared [["hold not found"], []] exStoreHolds
    (exRow Status.AWAITING_PAYMENT) ⟨"H1", "FO1", 77, false⟩ ["hold not found"]
    (by decide) (by decide) (by decide)
